import Mathlib

/-!
# GoBotTG: a shallow embedding of `main.go`

The Telegram bot of `main.go` keeps its whole state in package-level maps and
talks to the outside world through `bot.Send`, `bot.Request` and `exec.Command`.
The embedding below makes the package-level variables one record (`State`),
turns every outgoing call into an entry of an effect trace (`Effect`), and takes
the answers of the outside world (the output of `yt-dlp`, the message the
Telegram API returns) from an environment record (`Env`).

Go strings are byte sequences; they are embedded as lists of naturals, one
natural per byte.  `int64` chat identifiers are integers; the only place where
the width matters is `strconv.ParseInt`, which checks the range explicitly.
-/

namespace GoBotTG

/-! ## Go strings -/

/-- A Go string: its bytes in order, each byte a natural number below 256. -/
abbrev GoString := List Nat

/-- UTF-8 encoding of one code point, as the Go compiler stores a rune of a string
literal. -/
def encodeRune (c : Nat) : GoString :=
  if c < 0x80 then [c]
  else if c < 0x800 then [0xC0 + c / 64, 0x80 + c % 64]
  else if c < 0x10000 then [0xE0 + c / 4096, 0x80 + (c / 64) % 64, 0x80 + c % 64]
  else [0xF0 + c / 262144, 0x80 + (c / 4096) % 64, 0x80 + (c / 64) % 64, 0x80 + c % 64]

/-- A Go string literal: the UTF-8 bytes of its text. -/
def lit (s : String) : GoString :=
  (s.toList.map (fun c => encodeRune c.toNat)).flatten

/-- The function `strings.HasPrefix(s, p)`. -/
def HasPrefix (s p : GoString) : Bool :=
  p.isPrefixOf s

/-- The function `strings.TrimPrefix(s, p)`. -/
def TrimPrefix (s p : GoString) : GoString :=
  if HasPrefix s p then s.drop p.length else s

/-- Decimal digits of a natural number, as `%d` prints them. -/
def natDigits (n : Nat) : GoString :=
  (Nat.toDigits 10 n).map Char.toNat

/-- The verb `%d` of `fmt.Sprintf` on an integer. -/
def fmtInt (n : Int) : GoString :=
  if n < 0 then 45 :: natDigits n.natAbs else natDigits n.natAbs

/-! ## Go maps -/

/-- A Go map as an association list with at most one entry per key written by
`set`.  The order of the entries stands for the (unspecified) iteration order. -/
abbrev GoMap (K V : Type) := List (K × V)

namespace GoMap

variable {K V : Type} [DecidableEq K]

/-- The two-result read `v, ok := m[k]`: `none` when the key is absent. -/
def lookup : GoMap K V → K → Option V
  | [], _ => none
  | (k', v) :: rest, k => if k' = k then some v else lookup rest k

/-- The one-result read `m[k]`: the zero value `d` when the key is absent. -/
def getD (m : GoMap K V) (k : K) (d : V) : V :=
  (lookup m k).getD d

/-- The assignment `m[k] = v`. -/
def set : GoMap K V → K → V → GoMap K V
  | [], k, v => [(k, v)]
  | (k', v') :: rest, k, v => if k' = k then (k, v) :: rest else (k', v') :: set rest k v

/-- The statement `delete(m, k)`. -/
def delete (m : GoMap K V) (k : K) : GoMap K V :=
  m.filter (fun p => decide (p.1 ≠ k))

end GoMap

/-! ## `strconv` -/

/-- The value of a string of decimal digits, `none` when it is empty or holds
another byte (`strconv.ParseUint` with base 10, before the range check). -/
def parseDigits : GoString → Option Nat
  | [] => none
  | s => s.foldl (fun acc c =>
      match acc with
      | none => none
      | some n => if 48 ≤ c ∧ c ≤ 57 then some (n * 10 + (c - 48)) else none) (some 0)

/-- The call `strconv.ParseInt(s, 10, 64)`: `none` stands for `err != nil`
(syntax error or value out of the range of `int64`). -/
def ParseInt (s : GoString) : Option Int :=
  match s with
  | [] => none
  | c :: rest =>
    let neg := decide (c = 45)
    let body := if c = 43 ∨ c = 45 then rest else s
    match parseDigits body with
    | none => none
    | some un =>
      if !neg && decide (un ≥ 2 ^ 63) then none
      else if neg && decide (un > 2 ^ 63) then none
      else some (if neg then -(un : Int) else (un : Int))

/-- The call `strconv.Atoi(s)` on a platform whose `int` has 64 bits. -/
def Atoi (s : GoString) : Option Int :=
  ParseInt s

/-! ## `unicode/utf8` and `strings.TrimSpace` -/

/-- The constant `utf8.RuneError`. -/
def RuneError : Nat := 0xFFFD

/-- The constant `utf8.RuneSelf`. -/
def RuneSelf : Nat := 0x80

/-- The table `first` of package `utf8`: information about the first byte of an
encoding.  `0xF0` marks an ASCII byte, `0xF1` an invalid one; for every other byte
the lower three bits are the width of the encoding and the upper four bits the index
of the accept range of the second byte. -/
def first (b : Nat) : Nat :=
  if b < 0x80 then 0xF0
  else if b < 0xC2 then 0xF1
  else if b < 0xE0 then 0x02
  else if b = 0xE0 then 0x13
  else if b < 0xED then 0x03
  else if b = 0xED then 0x23
  else if b < 0xF0 then 0x03
  else if b = 0xF0 then 0x34
  else if b < 0xF4 then 0x04
  else if b = 0xF4 then 0x44
  else 0xF1

/-- The lower bounds of the table `acceptRanges` of package `utf8`. -/
def acceptLo (i : Nat) : Nat :=
  if i = 1 then 0xA0 else if i = 3 then 0x90 else 0x80

/-- The upper bounds of the table `acceptRanges` of package `utf8`. -/
def acceptHi (i : Nat) : Nat :=
  if i = 2 then 0x9F else if i = 4 then 0x8F else 0xBF

/-- The rune of a two-byte encoding: `rune(s0&mask2)<<6 | rune(s1&maskx)`. -/
def rune2 (s0 s1 : Nat) : Nat :=
  (s0 % 32) * 64 + s1 % 64

/-- The rune of a three-byte encoding:
`rune(s0&mask3)<<12 | rune(s1&maskx)<<6 | rune(s2&maskx)`. -/
def rune3 (s0 s1 s2 : Nat) : Nat :=
  (s0 % 16) * 4096 + (s1 % 64) * 64 + s2 % 64

/-- The rune of a four-byte encoding:
`rune(s0&mask4)<<18 | rune(s1&maskx)<<12 | rune(s2&maskx)<<6 | rune(s3&maskx)`. -/
def rune4 (s0 s1 s2 s3 : Nat) : Nat :=
  (s0 % 8) * 262144 + (s1 % 64) * 4096 + (s2 % 64) * 64 + s3 % 64

/-- The function `utf8.DecodeRuneInString`: the first rune of `s` and its width in
bytes; `(RuneError, 0)` for the empty string and `(RuneError, 1)` for an invalid
encoding. -/
def DecodeRuneInString (s : GoString) : Nat × Nat :=
  match s with
  | [] => (RuneError, 0)
  | s0 :: rest =>
    let x := first s0
    if 0xF0 ≤ x then (if x % 2 = 1 then RuneError else s0, 1)
    else
      let sz := x % 8
      if s.length < sz then (RuneError, 1)
      else
        match rest with
        | [] => (RuneError, 1)
        | s1 :: rest1 =>
          if s1 < acceptLo (x / 16) ∨ acceptHi (x / 16) < s1 then (RuneError, 1)
          else if sz ≤ 2 then (rune2 s0 s1, 2)
          else
            match rest1 with
            | [] => (RuneError, 1)
            | s2 :: rest2 =>
              if s2 < 0x80 ∨ 0xBF < s2 then (RuneError, 1)
              else if sz ≤ 3 then (rune3 s0 s1 s2, 3)
              else
                match rest2 with
                | [] => (RuneError, 1)
                | s3 :: _ =>
                  if s3 < 0x80 ∨ 0xBF < s3 then (RuneError, 1)
                  else (rune4 s0 s1 s2 s3, 4)

/-- The function `utf8.RuneStart`: the byte is not a continuation byte. -/
def RuneStart (b : Nat) : Bool :=
  !(decide (0x80 ≤ b) && decide (b ≤ 0xBF))

/-- The backward scan of `utf8.DecodeLastRuneInString`: `k` is the distance of the
byte under inspection from the end `e`; the scan stops at the first rune start or
when it passes `lim`, and returns the index it stopped at (possibly `lim - 1`). -/
def scanStart (s : GoString) (e lim : Nat) : Nat → Nat → Int
  | 0, k => (e : Int) - (k : Int)
  | n + 1, k =>
    if k + lim ≤ e then
      if RuneStart (s.getD (e - k) 0) then (e : Int) - (k : Int)
      else scanStart s e lim n (k + 1)
    else (e : Int) - (k : Int)

/-- The function `utf8.DecodeLastRuneInString`: the last rune of `s` and its width. -/
def DecodeLastRuneInString (s : GoString) : Nat × Nat :=
  let e := s.length
  if e = 0 then (RuneError, 0)
  else
    let r := s.getD (e - 1) 0
    if r < RuneSelf then (r, 1)
    else
      let lim := e - 4
      let start := (scanStart s e lim 4 2).toNat
      let d := DecodeRuneInString (s.drop start)
      if start + d.2 ≠ e then (RuneError, 1) else d

/-- The function `unicode.IsSpace`. -/
def IsSpace (r : Nat) : Bool :=
  if r ≤ 0xFF then
    decide (r = 9 ∨ r = 10 ∨ r = 11 ∨ r = 12 ∨ r = 13 ∨ r = 32 ∨ r = 0x85 ∨ r = 0xA0)
  else
    decide (r = 0x1680 ∨ (0x2000 ≤ r ∧ r ≤ 0x200A) ∨ r = 0x2028 ∨ r = 0x2029
      ∨ r = 0x202F ∨ r = 0x205F ∨ r = 0x3000)

/-- The table `asciiSpace` of package `strings`. -/
def asciiSpace (c : Nat) : Bool :=
  decide (c = 9 ∨ c = 10 ∨ c = 11 ∨ c = 12 ∨ c = 13 ∨ c = 32)

/-- The loop of `strings.indexFunc(s, f, false)` over the runes of `s`: the byte
offset of the first rune `r` with `f r = false`, counted from `i`; `-1` if none.
The first argument bounds the number of iterations; `s.length` is enough. -/
def indexFuncFrom (f : Nat → Bool) : Nat → GoString → Nat → Int
  | 0, _, _ => -1
  | n + 1, s, i =>
    match s with
    | [] => -1
    | _ :: _ =>
      let d := DecodeRuneInString s
      if f d.1 = false then (i : Int) else indexFuncFrom f n (s.drop d.2) (i + d.2)

/-- The function `strings.TrimLeftFunc(s, f)`. -/
def TrimLeftFunc (s : GoString) (f : Nat → Bool) : GoString :=
  let i := indexFuncFrom f s.length s 0
  if i = -1 then [] else s.drop i.toNat

/-- The loop of `strings.lastIndexFunc(s, f, false)`: `i` is the end of the part of
`s` still to inspect.  The first argument bounds the number of iterations;
`s.length` is enough. -/
def lastIndexFuncFrom (f : Nat → Bool) (s : GoString) : Nat → Nat → Int
  | 0, _ => -1
  | n + 1, i =>
    if 0 < i then
      let d := DecodeLastRuneInString (s.take i)
      if f d.1 = false then ((i - d.2 : Nat) : Int) else lastIndexFuncFrom f s n (i - d.2)
    else -1

/-- The function `strings.TrimRightFunc(s, f)`. -/
def TrimRightFunc (s : GoString) (f : Nat → Bool) : GoString :=
  let i := lastIndexFuncFrom f s s.length s.length
  if 0 ≤ i ∧ RuneSelf ≤ s.getD i.toNat 0 then
    s.take (i.toNat + (DecodeRuneInString (s.drop i.toNat)).2)
  else s.take (i + 1).toNat

/-- The function `strings.TrimFunc(s, f)`. -/
def TrimFunc (s : GoString) (f : Nat → Bool) : GoString :=
  TrimRightFunc (TrimLeftFunc s f) f

/-- The second loop of `strings.TrimSpace` on `t = s[start:]`: `stop` runs down from
the length of `t`. -/
def trimSpaceStop (t : GoString) : Nat → GoString
  | 0 => []
  | stop + 1 =>
    let c := t.getD stop 0
    if RuneSelf ≤ c then TrimRightFunc (t.take (stop + 1)) IsSpace
    else if asciiSpace c = false then t.take (stop + 1)
    else trimSpaceStop t stop

/-- The function `strings.TrimSpace`: the first loop walks over leading ASCII
space, falls back to `TrimFunc` at the first byte that is not ASCII, and hands over
to the second loop at the first ASCII byte that is not space. -/
def TrimSpace : GoString → GoString
  | [] => []
  | c :: rest =>
    if RuneSelf ≤ c then TrimFunc (c :: rest) IsSpace
    else if asciiSpace c = false then trimSpaceStop (c :: rest) (c :: rest).length
    else TrimSpace rest

/-! ## `sanitizeFileName` -/

/-- The call `strings.ReplaceAll(name, ch, "_")` for a one-byte `ch`. -/
def replaceByte (name : GoString) (ch : Nat) : GoString :=
  name.map (fun b => if b = ch then 95 else b)

/-- The slice `forbidden` of `sanitizeFileName`: the bytes of
`/ \ : * ? (apostrophe) < > | " .` in this order. -/
def forbidden : List Nat := [47, 92, 58, 42, 63, 39, 60, 62, 124, 34, 46]

/-- The function `sanitizeFileName` of `main.go`. -/
def sanitizeFileName (name : GoString) : GoString :=
  let name := forbidden.foldl replaceByte name
  let name := if name.length > 50 then name.take 50 else name
  TrimSpace name

/-! ## The state of the bot and its interface to the outside world -/

/-- The type `SearchResult` of `main.go`. -/
structure SearchResult where
  ID : GoString
  Title : GoString
  Duration : Int
deriving DecidableEq, Repr

/-- The package-level variables of `main.go`.  `cacheMu` has no counterpart: every
function below runs one handler from start to end, and the interleaving of
goroutines is modelled separately by the step functions `dlStep` and `hdStep`. -/
structure State where
  adminID : Int
  allUsers : GoMap Int Bool
  bannedUsers : GoMap Int Bool
  awaitingBroadcast : GoMap Int Bool
  awaitingBan : GoMap Int Bool
  awaitingUnban : GoMap Int Bool
  userLang : GoMap Int GoString
  titleCache : GoMap GoString GoString
  fileCache : GoMap GoString GoString
  durationCache : GoMap GoString Int
  inlineProcessing : GoMap GoString Bool
deriving DecidableEq, Repr

/-- The state right after start-up: `adminID` read from the environment variable,
every map empty. -/
def State.init (adminID : Int) : State :=
  { adminID := adminID, allUsers := [], bannedUsers := [], awaitingBroadcast := [],
    awaitingBan := [], awaitingUnban := [], userLang := [], titleCache := [],
    fileCache := [], durationCache := [], inlineProcessing := [] }

/-- The file argument of `tgbotapi.NewAudio`: `tgbotapi.FileID` or
`tgbotapi.FilePath`. -/
inductive AudioFile where
  | fileID (id : GoString)
  | filePath (path : GoString)
deriving DecidableEq, Repr

/-- An entry of the answer to an inline query: `NewInlineQueryResultCachedAudio`
with its caption, or `NewInlineQueryResultArticle` with its description, the URL of
its one button and the text of its message content. -/
inductive InlineResult where
  | cachedAudio (id fileID caption : GoString)
  | article (id title description url text : GoString)
deriving DecidableEq, Repr

/-- A goroutine started with `go`: `handleDownload`, `handleSearch`, or the
anonymous function of `handleChosenInlineResult`. -/
inductive Task where
  | download (chatID : Int) (videoID title : GoString)
  | search (chatID : Int) (query : GoString)
  | precache (videoID : GoString)
deriving DecidableEq, Repr

/-- One call that leaves the process, in the order the handler makes them. -/
inductive Effect where
  /-- The call `bot.Send(tgbotapi.NewMessage(chatID, text))`. -/
  | send (chatID : Int) (text : GoString)
  /-- A text message with an inline keyboard; a button is its label and its
  callback data. -/
  | sendKeyboard (chatID : Int) (text : GoString) (rows : List (List (GoString × GoString)))
  /-- The call `bot.Send` on a `tgbotapi.NewAudio` with caption and title. -/
  | sendAudio (chatID : Int) (file : AudioFile) (caption title : GoString)
  /-- The call `bot.Send(tgbotapi.NewEditMessageText(chatID, messageID, text))`. -/
  | editText (chatID : Int) (messageID : Int) (text : GoString)
  /-- The call `bot.Request(tgbotapi.NewDeleteMessage(chatID, messageID))`. -/
  | deleteMessage (chatID : Int) (messageID : Int)
  /-- The call `bot.Request(tgbotapi.NewCallback(id, ""))`. -/
  | answerCallback (id : GoString)
  /-- The call `bot.Request` on the `tgbotapi.InlineConfig` of an inline query. -/
  | answerInline (id : GoString) (results : List InlineResult)
  /-- An external command with its argument vector (`Output` or `Run`). -/
  | exec (argv : List GoString)
  /-- The call `os.Stat(path)`. -/
  | stat (path : GoString)
  /-- The call `os.Remove(path)`. -/
  | remove (path : GoString)
  /-- A `go` statement. -/
  | go (task : Task)
deriving DecidableEq, Repr

/-- What the outside world answers.  The handlers of `main.go` use the result of an
external call in these places only. -/
structure Env where
  /-- The field `bot.Self.UserName`. -/
  userName : GoString
  /-- The `MessageID` of the message `bot.Send` returns for a text message. -/
  messageID : Int → GoString → Int
  /-- The standard output of `exec.Command(argv...).Output()`, `none` on error. -/
  output : List GoString → Option GoString
  /-- Whether `exec.Command(argv...).Run()` returns no error. -/
  run : List GoString → Bool
  /-- Whether `os.Stat(path)` returns no error. -/
  statOk : GoString → Bool
  /-- The `Audio.FileID` of the message `bot.Send` returns for the upload of the file
  at `path` to `chatID` with the given title, `none` on error. -/
  upload : Int → GoString → GoString → Option GoString
  /-- The result of `searchYoutube(query, ytDlpPath)`. -/
  search : GoString → GoString → List SearchResult

/-- The constant `MaxDurationMinutes`. -/
def MaxDurationMinutes : Int := 10

/-- The constant `DownloadFolder`. -/
def DownloadFolder : GoString := lit "downloads"

/-- The caption `"🎶 " + title`. -/
def caption (title : GoString) : GoString :=
  lit "🎶 " ++ title

/-- The URL `"https://www.youtube.com/watch?v=" + videoID`. -/
def watchURL (videoID : GoString) : GoString :=
  lit "https://www.youtube.com/watch?v=" ++ videoID

/-- The argument vector of `infoCmd` in `downloadAndCacheAudio`. -/
def infoArgs (ytDlpPath videoID : GoString) : List GoString :=
  [ytDlpPath, lit "--print", lit "duration", watchURL videoID]

/-- The argument vector of `cmd` in `downloadAndCacheAudio`. -/
def fetchArgs (ytDlpPath output videoID : GoString) : List GoString :=
  [ytDlpPath, lit "-x", lit "--audio-format", lit "mp3", lit "-o", output, watchURL videoID]

/-- The template `fmt.Sprintf("%s/%s.%%(ext)s", DownloadFolder, safeTitle)`. -/
def outputTemplate (safeTitle : GoString) : GoString :=
  DownloadFolder ++ lit "/" ++ safeTitle ++ lit ".%(ext)s"

/-- The path `fmt.Sprintf("%s/%s.mp3", DownloadFolder, safeTitle)`. -/
def mp3Path (safeTitle : GoString) : GoString :=
  DownloadFolder ++ lit "/" ++ safeTitle ++ lit ".mp3"

/-- The duration probe of `downloadAndCacheAudio`: the integer that `strconv.Atoi`
reads from the trimmed output of `infoCmd`, `none` when the command or the
conversion returns an error. -/
def probeDuration (env : Env) (ytDlpPath videoID : GoString) : Option Int :=
  match env.output (infoArgs ytDlpPath videoID) with
  | none => none
  | some durationBytes => Atoi (TrimSpace durationBytes)

/-- The function `downloadAndCacheAudio` of `main.go`: the returned string, the
state afterwards and the calls made. -/
def downloadAndCacheAudio (env : Env) (videoID title ytDlpPath : GoString)
    (cacheChannelID : Int) (s : State) : GoString × State × List Effect :=
  match s.fileCache.lookup videoID with
  | some fileID => (fileID, s, [])
  | none =>
    let safeTitle := sanitizeFileName title
    let output := outputTemplate safeTitle
    let probed := probeDuration env ytDlpPath videoID
    let s1 : State :=
      match probed with
      | some duration => { s with durationCache := s.durationCache.set videoID duration }
      | none => s
    let t1 := [Effect.exec (infoArgs ytDlpPath videoID)]
    if (match probed with
        | some duration => decide (duration > MaxDurationMinutes * 60)
        | none => false) then ([], s1, t1)
    else
      let t2 := t1 ++ [Effect.exec (fetchArgs ytDlpPath output videoID)]
      if env.run (fetchArgs ytDlpPath output videoID) = false then ([], s1, t2)
      else
        let mp3 := mp3Path safeTitle
        let t3 := t2 ++ [Effect.stat mp3]
        if env.statOk mp3 then
          let t4 := t3 ++ [Effect.sendAudio cacheChannelID (AudioFile.filePath mp3)
            (caption title) title]
          match env.upload cacheChannelID mp3 title with
          | some fileID =>
            (fileID, { s1 with fileCache := s1.fileCache.set videoID fileID },
              t4 ++ [Effect.remove mp3])
          | none => ([], s1, t4 ++ [Effect.remove mp3])
        else ([], s1, t3)

/-- The verb `%.2f` of `fmt.Sprintf` applied to `float64(duration)/60`, for a
duration from 0 to 2^53: the quotient rounded to hundredths.  A quotient
`duration/60` is never half-way between two hundredths, so the rounding of the
floating-point quotient is the rounding of the exact one. -/
def fmtMinutes (duration : Int) : GoString :=
  let h := (10 * duration.toNat + 3) / 6
  natDigits (h / 100) ++ lit "." ++ natDigits (h % 100 / 10) ++ natDigits (h % 10)

/-- The text `tooLongText` of `handleDownload`. -/
def tooLongText (lang : GoString) (duration : Int) : GoString :=
  if lang = lit "hy" then
    lit "❌ Երգը շատ երկար է (" ++ fmtMinutes duration
      ++ lit " րոպե). Առավելագույն տևողությունը 10 րոպե է:"
  else if lang = lit "en" then
    lit "❌ Track is too long (" ++ fmtMinutes duration
      ++ lit " min). Maximum duration is 10 minutes:"
  else
    lit "❌ Трек слишком длинный (" ++ fmtMinutes duration
      ++ lit " мин). Максимальная продолжительность - 10 минут:"

/-- The text `downloadText` of `handleDownload`. -/
def downloadText (lang title : GoString) : GoString :=
  if lang = lit "hy" then lit "🎧 Ներբեռնում եմ: " ++ title
  else if lang = lit "en" then lit "🎧 Downloading: " ++ title
  else lit "🎧 Скачиваю: " ++ title

/-- The text `errorText` of `handleDownload`. -/
def errorText (lang : GoString) : GoString :=
  if lang = lit "hy" then lit "❌ Ներբեռնման սխալ"
  else if lang = lit "en" then lit "❌ Download error"
  else lit "❌ Ошибка скачивания"

/-- The guard `hasDuration && duration > MaxDurationMinutes*60` of `handleDownload`. -/
def durationTooLong (s : State) (videoID : GoString) : Bool :=
  match s.durationCache.lookup videoID with
  | some duration => decide (duration > MaxDurationMinutes * 60)
  | none => false

/-- The end of `handleDownload`, after `downloadAndCacheAudio` has returned. -/
def deliver (chatID : Int) (title lang : GoString) (statusID : Int)
    (resultFileID : GoString) : List Effect :=
  if resultFileID ≠ [] then
    [Effect.sendAudio chatID (AudioFile.fileID resultFileID) (caption title) title,
     Effect.deleteMessage chatID statusID]
  else [Effect.editText chatID statusID (errorText lang)]

/-- The function `handleDownload` of `main.go`, run from start to end. -/
def handleDownload (env : Env) (chatID : Int) (videoID title ytDlpPath : GoString)
    (cacheChannelID : Int) (s : State) : State × List Effect :=
  if durationTooLong s videoID then
    let lang := s.userLang.getD chatID []
    (s, [Effect.send chatID (tooLongText lang (s.durationCache.getD videoID 0))])
  else
    match s.fileCache.lookup videoID with
    | some fileID =>
      (s, [Effect.sendAudio chatID (AudioFile.fileID fileID) (caption title) title])
    | none =>
      let lang := s.userLang.getD chatID []
      let statusID := env.messageID chatID (downloadText lang title)
      let r := downloadAndCacheAudio env videoID title ytDlpPath cacheChannelID s
      (r.2.1, [Effect.send chatID (downloadText lang title)] ++ r.2.2
        ++ deliver chatID title lang statusID r.1)

/-- The function `handleChosenInlineResult` of `main.go`: it only starts a
goroutine, and only for a result that is not in `fileCache`. -/
def handleChosenInlineResult (resultID : GoString) (s : State) : State × List Effect :=
  match s.fileCache.lookup resultID with
  | none => (s, [Effect.go (Task.precache resultID)])
  | some _ => (s, [])

/-- The anonymous function that `handleChosenInlineResult` starts, run from start
to end. -/
def precache (env : Env) (videoID ytDlpPath : GoString) (cacheChannelID : Int)
    (s : State) : State × List Effect :=
  if s.inlineProcessing.getD videoID false then (s, [])
  else
    let s1 : State := { s with inlineProcessing := s.inlineProcessing.set videoID true }
    let title := s1.titleCache.getD videoID []
    let r := downloadAndCacheAudio env videoID title ytDlpPath cacheChannelID s1
    ({ r.2.1 with inlineProcessing := r.2.1.inlineProcessing.set videoID false }, r.2.2)

/-! ## Messages and callbacks

The handlers `handleMessage`, `handleCallbackQuery`, `handleInlineQuery` and
`handleChosenInlineResult` receive `ytDlpPath` and `cacheChannelID` only to pass
them on to the goroutines they start; the embedding records the goroutine in the
trace (`Effect.go`) and leaves the two parameters out of these handlers. -/

/-- The type `tgbotapi.MessageEntity`, as far as `IsCommand` reads it. -/
structure MessageEntity where
  type : GoString
  offset : Nat
  length : Nat
deriving DecidableEq, Repr

/-- The part of `tgbotapi.Message` that `handleMessage` reads. -/
structure Message where
  chatID : Int
  text : GoString
  entities : List MessageEntity
deriving DecidableEq, Repr

/-- The method `Message.IsCommand` of the bot library: the first entity is a
`bot_command` at offset 0. -/
def Message.IsCommand (m : Message) : Bool :=
  match m.entities with
  | [] => false
  | entity :: _ => decide (entity.offset = 0) && decide (entity.type = lit "bot_command")

/-- The method `Message.Command`: `Text[1:entity.Length]`, cut at the first `@`. -/
def Message.Command (m : Message) : GoString :=
  match m.entities with
  | [] => []
  | entity :: _ =>
    if m.IsCommand then ((m.text.take entity.length).drop 1).takeWhile (fun b => b ≠ 64)
    else []

/-- The method `Message.CommandArguments`: `Text[entity.Length+1:]`. -/
def Message.CommandArguments (m : Message) : GoString :=
  match m.entities with
  | [] => []
  | entity :: _ =>
    if m.IsCommand then
      if m.text.length = entity.length then [] else m.text.drop (entity.length + 1)
    else []

/-- The part of `tgbotapi.CallbackQuery` that `handleCallbackQuery` reads;
`chatID` is `CallbackQuery.Message.Chat.ID`. -/
structure CallbackQuery where
  id : GoString
  chatID : Int
  data : GoString
deriving DecidableEq, Repr

/-- The part of `tgbotapi.InlineQuery` that `handleInlineQuery` reads. -/
structure InlineQuery where
  id : GoString
  query : GoString
deriving DecidableEq, Repr

/-- The refusal sent to a banned chat. -/
def bannedText : GoString := lit "🚫 Вы заблокированы."

/-- The reply to an identifier that `strconv.ParseInt` rejects. -/
def invalidIDText : GoString := lit "❌ Неверный формат ID пользователя."

/-- The confirmation `fmt.Sprintf("✅ Пользователь %d заблокирован.", userID)`. -/
def bannedOkText (userID : Int) : GoString :=
  lit "✅ Пользователь " ++ fmtInt userID ++ lit " заблокирован."

/-- The confirmation `fmt.Sprintf("✅ Пользователь %d разблокирован.", userID)`. -/
def unbannedOkText (userID : Int) : GoString :=
  lit "✅ Пользователь " ++ fmtInt userID ++ lit " разблокирован."

/-- The text a broadcast carries. -/
def broadcastText (msg : GoString) : GoString :=
  lit "📣 Сообщение от админа:\n\n" ++ msg

/-- The confirmation of a broadcast. -/
def broadcastOkText : GoString := lit "✅ Рассылка отправлена."

/-- The text `helpText` of `sendHelpMessage`. -/
def helpText (lang : GoString) : GoString :=
  if lang = lit "hy" then
    lit "✨ ━━━━━━━━━━━━━━━━ ✨\n🔊 Ինչպես օգտվել Melody Bot-ից\n✨ ━━━━━━━━━━━━━━━━ ✨\n🎧 Երաժշտություն որոնելու համար:\n1️⃣ Ուղարկեք երգի/արտիստի անունը\n2️⃣ Ընտրեք առաջարկվող արդյունքներից\n3️⃣ Սպասեք MP3 ձևափոխման ավարտին\n4️⃣ Ստացեք երգը և վայելեք այն!\n✨ ━━━━━━━━━━━━━━━━ ✨"
  else if lang = lit "en" then
    lit "✨ ━━━━━━━━━━━━━━━━ ✨\n🔊 How to use Melody Bot\n✨ ━━━━━━━━━━━━━━━━ ✨\n🎧 To find music:\n1️⃣ Send the song/artist name\n2️⃣ Choose from suggested results\n3️⃣ Wait for MP3 conversion\n4️⃣ Get your song and enjoy!\n✨ ━━━━━━━━━━━━━━━━ ✨"
  else
    lit "✨ ━━━━━━━━━━━━━━━━ ✨\n🔊 Как пользоваться Melody Bot\n✨ ━━━━━━━━━━━━━━━━ ✨\n🎧 Для поиска музыки:\n1️⃣ Отправьте название песни/исполнителя\n2️⃣ Выберите из предложенных результатов\n3️⃣ Дождитесь конвертации в MP3\n4️⃣ Получите песню и наслаждайтесь!\n✨ ━━━━━━━━━━━━━━━━ ✨"

/-- The function `sendHelpMessage` of `main.go`. -/
def sendHelpMessage (chatID : Int) (s : State) : List Effect :=
  [Effect.send chatID (helpText (s.userLang.getD chatID []))]

/-- The function `sendAdminPanel` of `main.go`. -/
def sendAdminPanel (chatID : Int) : List Effect :=
  [Effect.sendKeyboard chatID (lit "🛠 Admin Panel")
    [[(lit "📊 Stats", lit "admin_stats"), (lit "📣 Broadcast", lit "admin_broadcast")],
     [(lit "🚫 Ban", lit "admin_ban"), (lit "✅ Unban", lit "admin_unban")],
     [(lit "🧹 Clear cache", lit "admin_clearcache")]]]

/-- The language keyboard that `/start` without argument sends. -/
def sendLanguageChoice (chatID : Int) : List Effect :=
  [Effect.sendKeyboard chatID (lit "🌍 Select language / Выберите язык / Ընտրեք լեզուն")
    [[(lit "🇦🇲 Հայերեն", lit "lang_hy"), (lit "🇷🇺 Русский", lit "lang_ru"),
      (lit "🇺🇸 English", lit "lang_en")]]]

/-- The block `if chatID == adminID { ... }` of `handleMessage`, entered with
`chatID = adminID`: `some` when one of its three branches returns, `none` when
control falls through to the command switch. -/
def adminInput (m : Message) (s : State) : Option (State × List Effect) :=
  let chatID := m.chatID
  if s.awaitingBroadcast.getD chatID false then
    let s1 : State := { s with awaitingBroadcast := s.awaitingBroadcast.set chatID false }
    let msg := m.text
    some (s1, ((s1.allUsers.map Prod.fst).filter (fun uid => decide (uid ≠ s1.adminID))).map
        (fun uid => Effect.send uid (broadcastText msg))
      ++ [Effect.send chatID broadcastOkText])
  else if s.awaitingBan.getD chatID false then
    let s1 : State := { s with awaitingBan := s.awaitingBan.set chatID false }
    match ParseInt m.text with
    | some userID =>
      some ({ s1 with bannedUsers := s1.bannedUsers.set userID true },
        [Effect.send chatID (bannedOkText userID)])
    | none => some (s1, [Effect.send chatID invalidIDText])
  else if s.awaitingUnban.getD chatID false then
    let s1 : State := { s with awaitingUnban := s.awaitingUnban.set chatID false }
    match ParseInt m.text with
    | some userID =>
      some ({ s1 with bannedUsers := s1.bannedUsers.delete userID },
        [Effect.send chatID (unbannedOkText userID)])
    | none => some (s1, [Effect.send chatID invalidIDText])
  else none

/-- The command switch of `handleMessage`, entered when `IsCommand` holds. -/
def handleCommand (m : Message) (s : State) : State × List Effect :=
  let chatID := m.chatID
  let cmd := m.Command
  let args := m.CommandArguments
  if cmd = lit "start" then
    if args ≠ [] then
      let videoID := args
      let title := (s.titleCache.lookup videoID).getD (lit "Трек")
      (s, [Effect.go (Task.download chatID videoID title)])
    else (s, sendLanguageChoice chatID)
  else if cmd = lit "help" then (s, sendHelpMessage chatID s)
  else if cmd = lit "admin" then
    if chatID = s.adminID then (s, sendAdminPanel chatID) else (s, [])
  else (s, [])

/-- The function `handleMessage` of `main.go`. -/
def handleMessage (m : Message) (s0 : State) : State × List Effect :=
  let chatID := m.chatID
  let s : State := { s0 with allUsers := s0.allUsers.set chatID true }
  if s.bannedUsers.getD chatID false && decide (chatID ≠ s.adminID) then
    (s, [Effect.send chatID bannedText])
  else
    match (if chatID = s.adminID then adminInput m s else none) with
    | some r => r
    | none =>
      if m.IsCommand then handleCommand m s
      else if s.userLang.getD chatID [] = [] then
        (s, [Effect.send chatID (lit "🌐 Please select language using /start")])
      else (s, [Effect.go (Task.search chatID m.text)])

/-- The text of the `admin_stats` reply. -/
def statsText (s : State) : GoString :=
  lit "👥 Users: " ++ fmtInt s.allUsers.length ++ lit "\n🚫 Banned: "
    ++ fmtInt s.bannedUsers.length ++ lit "\n🎵 Cached songs: " ++ fmtInt s.fileCache.length

/-- The block `if chatID == adminID { ... }` of `handleCallbackQuery`, entered
with `chatID = adminID`: `some` when one of its branches returns. -/
def adminCallback (chatID : Int) (data : GoString) (s : State) :
    Option (State × List Effect) :=
  if data = lit "admin_broadcast" then
    some ({ s with awaitingBroadcast := s.awaitingBroadcast.set chatID true },
      [Effect.send chatID (lit "✉️ Enter broadcast message:")])
  else if data = lit "admin_stats" then
    some (s, [Effect.send chatID (statsText s)])
  else if data = lit "admin_ban" then
    some ({ s with awaitingBan := s.awaitingBan.set chatID true },
      [Effect.send chatID (lit "👤 Enter user ID to ban:")])
  else if data = lit "admin_unban" then
    some ({ s with awaitingUnban := s.awaitingUnban.set chatID true },
      [Effect.send chatID (lit "👤 Enter user ID to unban:")])
  else if data = lit "admin_clearcache" then
    some ({ s with fileCache := [] }, [Effect.send chatID (lit "🧹 Cache cleared")])
  else none

/-- The language branches at the end of `handleCallbackQuery`. -/
def languageCallback (chatID : Int) (data : GoString) (s : State) : State × List Effect :=
  if data = lit "lang_hy" then
    ({ s with userLang := s.userLang.set chatID (lit "hy") },
      [Effect.send chatID (lit "👋 Բարի գալուստ!\n🎵 Ես կարող եմ գտնել երգեր YouTube-ում և ուղարկել MP3 ֆորմատով։")])
  else if data = lit "lang_ru" then
    ({ s with userLang := s.userLang.set chatID (lit "ru") },
      [Effect.send chatID (lit "👋 Добро пожаловать!\n🎵 Я могу найти песни на YouTube и отправить их в формате MP3.")])
  else if data = lit "lang_en" then
    ({ s with userLang := s.userLang.set chatID (lit "en") },
      [Effect.send chatID (lit "👋 Welcome!\n🎵 I can find songs on YouTube and send them in MP3 format.")])
  else (s, [])

/-- The function `handleCallbackQuery` of `main.go`. -/
def handleCallbackQuery (q : CallbackQuery) (s : State) : State × List Effect :=
  let chatID := q.chatID
  let data := q.data
  let ack := [Effect.answerCallback q.id]
  if HasPrefix data (lit "dl_") then
    let videoID := TrimPrefix data (lit "dl_")
    let title := s.titleCache.getD videoID []
    (s, ack ++ [Effect.go (Task.download chatID videoID title)])
  else
    match (if chatID = s.adminID then adminCallback chatID data s else none) with
    | some r => (r.1, ack ++ r.2)
    | none =>
      let r := languageCallback chatID data s
      (r.1, ack ++ r.2)

/-- The inline result that `handleInlineQuery` builds for a search result that
passed the duration filter. -/
def inlineResultFor (env : Env) (s : State) (r : SearchResult) : InlineResult :=
  match s.fileCache.lookup r.ID with
  | some fileID => InlineResult.cachedAudio r.ID fileID (caption r.Title)
  | none =>
    InlineResult.article r.ID r.Title (lit "Нажмите для скачивания")
      (lit "https://t.me/" ++ env.userName ++ lit "?start=" ++ r.ID)
      (lit "🎵 *" ++ r.Title ++ lit "*\n\nНажмите кнопку ниже, чтобы скачать трек.")

/-- The loop `for i, r := range results` of `handleInlineQuery`: `i` is the index of
the head of the remaining results, `articles` the slice built so far. -/
def inlineLoop (env : Env) : Nat → List SearchResult → State → List InlineResult →
    State × List InlineResult
  | _, [], s, articles => (s, articles)
  | i, r :: rest, s, articles =>
    if r.Duration > MaxDurationMinutes * 60 then inlineLoop env (i + 1) rest s articles
    else
      let s1 : State := { s with
        titleCache := s.titleCache.set r.ID r.Title,
        durationCache := s.durationCache.set r.ID r.Duration }
      let articles1 := articles ++ [inlineResultFor env s1 r]
      if i = 4 then (s1, articles1) else inlineLoop env (i + 1) rest s1 articles1

/-- The function `handleInlineQuery` of `main.go`. -/
def handleInlineQuery (env : Env) (q : InlineQuery) (ytDlpPath : GoString) (s : State) :
    State × List Effect :=
  if q.query = [] then (s, [])
  else
    let results := env.search q.query ytDlpPath
    let r := inlineLoop env 0 results s []
    (r.1, [Effect.answerInline q.id r.2])

/-- The inline results that `handleInlineQuery` sends for the given search results:
the `Results` field of its `InlineConfig`. -/
def inlineArticles (env : Env) (results : List SearchResult) (s : State) : List InlineResult :=
  (inlineLoop env 0 results s []).2

/-! ## Goroutines, step by step

`handleDownload` runs as a goroutine (`go handleDownload(...)`), and several of
them may run at once.  `cacheMu` protects single map accesses only: it is released
before every external command.  The step functions below cut `handleDownload` and
`downloadAndCacheAudio` at the external commands; one step is a stretch of code
that another goroutine may precede or follow but not interrupt.  The steps are
coarser than the locking of `main.go` allows, so every schedule of steps is a
schedule of the Go program. -/

/-- Where a goroutine stands inside `downloadAndCacheAudio`. -/
inductive DlPc where
  /-- Before the locked lookup in `fileCache`. -/
  | entry
  /-- After a cache miss, before `infoCmd.Output()`. -/
  | probe
  /-- Before `cmd.Run()`. -/
  | fetch
  /-- After a successful `cmd.Run()`, before `os.Stat(mp3)`. -/
  | store
  /-- Returned with this result. -/
  | done (result : GoString)
deriving DecidableEq, Repr

/-- One step of `downloadAndCacheAudio`. -/
def dlStep (env : Env) (videoID title ytDlpPath : GoString) (cacheChannelID : Int) :
    DlPc → State → DlPc × State × List Effect
  | DlPc.entry, s =>
    match s.fileCache.lookup videoID with
    | some fileID => (DlPc.done fileID, s, [])
    | none => (DlPc.probe, s, [])
  | DlPc.probe, s =>
    let probed := probeDuration env ytDlpPath videoID
    let s1 : State :=
      match probed with
      | some duration => { s with durationCache := s.durationCache.set videoID duration }
      | none => s
    if (match probed with
        | some duration => decide (duration > MaxDurationMinutes * 60)
        | none => false) then (DlPc.done [], s1, [Effect.exec (infoArgs ytDlpPath videoID)])
    else (DlPc.fetch, s1, [Effect.exec (infoArgs ytDlpPath videoID)])
  | DlPc.fetch, s =>
    let output := outputTemplate (sanitizeFileName title)
    if env.run (fetchArgs ytDlpPath output videoID) = false then
      (DlPc.done [], s, [Effect.exec (fetchArgs ytDlpPath output videoID)])
    else (DlPc.store, s, [Effect.exec (fetchArgs ytDlpPath output videoID)])
  | DlPc.store, s =>
    let mp3 := mp3Path (sanitizeFileName title)
    if env.statOk mp3 then
      let t := [Effect.stat mp3,
        Effect.sendAudio cacheChannelID (AudioFile.filePath mp3) (caption title) title]
      match env.upload cacheChannelID mp3 title with
      | some fileID =>
        (DlPc.done fileID, { s with fileCache := s.fileCache.set videoID fileID },
          t ++ [Effect.remove mp3])
      | none => (DlPc.done [], s, t ++ [Effect.remove mp3])
    else (DlPc.done [], s, [Effect.stat mp3])
  | DlPc.done result, s => (DlPc.done result, s, [])

/-- Where a `handleDownload` goroutine stands. -/
inductive HdPc where
  /-- Before the first statement. -/
  | start
  /-- Inside the call of `downloadAndCacheAudio`; `lang` and `statusID` are the local
  variables `lang` and `statusMsg.MessageID`. -/
  | downloading (lang : GoString) (statusID : Int) (pc : DlPc)
  /-- Returned. -/
  | finished
deriving DecidableEq, Repr

/-- One step of `handleDownload`. -/
def hdStep (env : Env) (chatID : Int) (videoID title ytDlpPath : GoString)
    (cacheChannelID : Int) : HdPc → State → HdPc × State × List Effect
  | HdPc.start, s =>
    if durationTooLong s videoID then
      let lang := s.userLang.getD chatID []
      (HdPc.finished, s,
        [Effect.send chatID (tooLongText lang (s.durationCache.getD videoID 0))])
    else
      match s.fileCache.lookup videoID with
      | some fileID =>
        (HdPc.finished, s,
          [Effect.sendAudio chatID (AudioFile.fileID fileID) (caption title) title])
      | none =>
        let lang := s.userLang.getD chatID []
        (HdPc.downloading lang (env.messageID chatID (downloadText lang title)) DlPc.entry, s,
          [Effect.send chatID (downloadText lang title)])
  | HdPc.downloading lang statusID (DlPc.done result), s =>
    (HdPc.finished, s, deliver chatID title lang statusID result)
  | HdPc.downloading lang statusID pc, s =>
    let r := dlStep env videoID title ytDlpPath cacheChannelID pc s
    (HdPc.downloading lang statusID r.1, r.2.1, r.2.2)
  | HdPc.finished, s => (HdPc.finished, s, [])

/-- A `handleDownload` goroutine left alone for `n` steps. -/
def hdRun (env : Env) (chatID : Int) (videoID title ytDlpPath : GoString)
    (cacheChannelID : Int) : Nat → HdPc → State → HdPc × State × List Effect
  | 0, pc, s => (pc, s, [])
  | n + 1, pc, s =>
    let r := hdStep env chatID videoID title ytDlpPath cacheChannelID pc s
    let r1 := hdRun env chatID videoID title ytDlpPath cacheChannelID n r.1 r.2.1
    (r1.1, r1.2.1, r.2.2 ++ r1.2.2)

/-- A running download request: the arguments of `handleDownload` and where the
goroutine stands. -/
structure Download where
  chatID : Int
  videoID : GoString
  title : GoString
  pc : HdPc
deriving DecidableEq, Repr

/-- The goroutines, the shared state and the trace so far. -/
structure Config where
  threads : List Download
  state : State
  trace : List Effect
deriving DecidableEq, Repr

/-- The goroutine with index `i` makes one step. -/
def Config.step (env : Env) (ytDlpPath : GoString) (cacheChannelID : Int) (c : Config)
    (i : Nat) : Config :=
  match c.threads.get? i with
  | none => c
  | some t =>
    let r := hdStep env t.chatID t.videoID t.title ytDlpPath cacheChannelID t.pc c.state
    { threads := c.threads.set i { t with pc := r.1 }, state := r.2.1,
      trace := c.trace ++ r.2.2 }

/-- The goroutines make steps in the order the schedule names them. -/
def Config.run (env : Env) (ytDlpPath : GoString) (cacheChannelID : Int) (c : Config)
    (schedule : List Nat) : Config :=
  schedule.foldl (Config.step env ytDlpPath cacheChannelID) c

/-- The number of times the fetch command `yt-dlp -x ...` for `videoID` stands in a
trace. -/
def fetchCount (ytDlpPath videoID : GoString) (trace : List Effect) : Nat :=
  (trace.filter (fun e =>
    match e with
    | Effect.exec argv =>
      decide (argv.take 5 = [ytDlpPath, lit "-x", lit "--audio-format", lit "mp3", lit "-o"]
        ∧ argv.getLast? = some (watchURL videoID))
    | _ => false)).length

/-- An outside world in which every external call succeeds: the probe prints
`215`, the fetch and the upload work, and the upload yields the file identifier
`FILE`. -/
def Env.allSucceed : Env :=
  { userName := lit "melody_bot",
    messageID := fun _ _ => 1,
    output := fun _ => some (lit "215\n"),
    run := fun _ => true,
    statOk := fun _ => true,
    upload := fun _ _ _ => some (lit "FILE"),
    search := fun _ _ => [] }

/-! ## Definitions used in the statements and proofs -/

/-- A state whose `fileCache` holds `abc`. -/
def cachedState : State :=
  { State.init 1 with fileCache := [(lit "abc", lit "FILE")] }

/-- An outside world whose probe reports 700 seconds. -/
def Env.longTrack : Env :=
  { Env.allSucceed with output := fun _ => some (lit "700\n") }

/-- The admin chat 1 after the callbacks `admin_broadcast` and `admin_ban`, in this
order, from the initial state: both flags are set. -/
def twoFlagsState : State :=
  (handleCallbackQuery { id := lit "q2", chatID := 1, data := lit "admin_ban" }
    (handleCallbackQuery { id := lit "q1", chatID := 1, data := lit "admin_broadcast" }
      (State.init 1)).1).1

/-- The admin chat 1 after the single callback `admin_unban`. -/
def unbanFlagState : State :=
  (handleCallbackQuery { id := lit "q1", chatID := 1, data := lit "admin_unban" }
    (State.init 1)).1

/-- The admin chat 1 after the single callback `admin_ban`. -/
def banFlagState : State :=
  (handleCallbackQuery { id := lit "q1", chatID := 1, data := lit "admin_ban" }
    (State.init 1)).1

/-- An outside world whose probe command fails while fetch and upload work. -/
def Env.probeFails : Env :=
  { Env.allSucceed with output := fun _ => none }

/-- The state after two pre-caching goroutines for `abc` have run one after the
other from the initial state: the first probed 700 seconds and gave up, the second
could not probe, fetched the track and cached it. -/
def staleDurationState : State :=
  (precache Env.probeFails (lit "abc") (lit "yt-dlp") (-100)
    (precache Env.longTrack (lit "abc") (lit "yt-dlp") (-100) (State.init 1)).1).1

/-- A state in which chat 7 is banned and chat 1 is the admin. -/
def bannedState : State :=
  { State.init 1 with bannedUsers := [(7, true)] }

/-- A search result with the given identifier and duration. -/
def track (id : String) (duration : Int) : SearchResult :=
  { ID := lit id, Title := lit "Song", Duration := duration }

/-- Seven search results; the fifth lasts 650 seconds, the others 100. -/
def sevenResults : List SearchResult :=
  [track "a" 100, track "b" 100, track "c" 100, track "d" 100, track "e" 650,
   track "f" 100, track "g" 100]

/-- An outside world whose search finds the seven results of `sevenResults`. -/
def Env.sevenFound : Env :=
  { Env.allSucceed with search := fun _ _ => sevenResults }

/-- An outside world whose search finds the one track `abc` of 215 seconds. -/
def Env.oneFound : Env :=
  { Env.allSucceed with search := fun _ _ => [track "abc" 215] }

/-- The state after one inline query from the initial state has recorded title and
duration of the track `abc`; the track is not in `fileCache`. -/
def searchedState : State :=
  (handleInlineQuery Env.oneFound { id := lit "q0", query := lit "song" } (lit "yt-dlp")
    (State.init 1)).1

/-- Two download requests for the uncached track `abc`, from the chats 10 and 11,
as the callbacks `dl_abc` start them in `searchedState`. -/
def twoRequests : Config :=
  { threads := [{ chatID := 10, videoID := lit "abc", title := lit "Song", pc := HdPc.start },
                { chatID := 11, videoID := lit "abc", title := lit "Song", pc := HdPc.start }],
    state := searchedState,
    trace := [] }

/-- A continuation byte. -/
def Cont (b : Nat) : Prop := 0x80 ≤ b ∧ b ≤ 0xBF

/-- The byte `s0` starts an encoding of `n` bytes. -/
def Lead (s0 n : Nat) : Prop := first s0 < 0xF0 ∧ first s0 % 8 = n

/-- The byte `s1` is in the accept range that `s0` selects. -/
def Acc (s0 s1 : Nat) : Prop :=
  acceptLo (first s0 / 16) ≤ s1 ∧ s1 ≤ acceptHi (first s0 / 16)

/-- The shapes of a result of `DecodeRuneInString`. -/
inductive DecodeShape : GoString → Nat × Nat → Prop where
  | empty : DecodeShape [] (RuneError, 0)
  | ascii (s0 : Nat) (rest : GoString) : s0 < 0x80 → DecodeShape (s0 :: rest) (s0, 1)
  | invalid (s0 : Nat) (rest : GoString) : 0x80 ≤ s0 → DecodeShape (s0 :: rest) (RuneError, 1)
  | two (s0 s1 : Nat) (rest : GoString) : Lead s0 2 → Acc s0 s1 →
      DecodeShape (s0 :: s1 :: rest) (rune2 s0 s1, 2)
  | three (s0 s1 s2 : Nat) (rest : GoString) : Lead s0 3 → Acc s0 s1 → Cont s2 →
      DecodeShape (s0 :: s1 :: s2 :: rest) (rune3 s0 s1 s2, 3)
  | four (s0 s1 s2 s3 : Nat) (rest : GoString) : Lead s0 4 → Acc s0 s1 → Cont s2 → Cont s3 →
      DecodeShape (s0 :: s1 :: s2 :: s3 :: rest) (rune4 s0 s1 s2 s3, 4)

/-- No encoding that starts before the byte offset `i` of `u` reaches beyond `i`. -/
def NoStraddle (u : GoString) (i : Nat) : Prop :=
  ∀ q, q < i → q + (DecodeRuneInString (u.drop q)).2 ≤ i

/-- The loop of `utf8.RuneCountInString`, as a `range` loop over the string counts
runes: one per valid encoding and one per byte that starts no valid encoding.  The
first argument bounds the number of iterations; `s.length` is enough. -/
def runeCountFrom : Nat → GoString → Nat
  | 0, _ => 0
  | n + 1, s =>
    match s with
    | [] => 0
    | _ :: _ => 1 + runeCountFrom n (s.drop (DecodeRuneInString s).2)

/-- The function `utf8.RuneCountInString`: the number of characters of a string. -/
def RuneCountInString (s : GoString) : Nat :=
  runeCountFrom s.length s

/-- The identifier of an inline result. -/
def InlineResult.id : InlineResult → GoString
  | InlineResult.cachedAudio id _ _ => id
  | InlineResult.article id _ _ _ _ => id

/-! ## Facts about Go maps -/

theorem GoMap.lookup_set_self {K V : Type} [DecidableEq K] (m : GoMap K V) (k : K) (v : V) :
    GoMap.lookup (GoMap.set m k v) k = some v := by
  induction m with
  | nil => simp [GoMap.set, GoMap.lookup]
  | cons p rest ih =>
    obtain ⟨k', v'⟩ := p
    by_cases h : k' = k
    · simp [GoMap.set, GoMap.lookup, h]
    · simp [GoMap.set, GoMap.lookup, h, ih]

theorem GoMap.lookup_set_ne {K V : Type} [DecidableEq K] (m : GoMap K V) (k k1 : K) (v : V)
    (hne : k ≠ k1) : GoMap.lookup (GoMap.set m k v) k1 = GoMap.lookup m k1 := by
  induction m with
  | nil => simp [GoMap.set, GoMap.lookup, hne]
  | cons p rest ih =>
    obtain ⟨k', v'⟩ := p
    by_cases h : k' = k
    · subst h
      simp [GoMap.set, GoMap.lookup, hne]
    · by_cases h1 : k' = k1
      · subst h1
        simp [GoMap.set, GoMap.lookup, h]
      · simp [GoMap.set, GoMap.lookup, h, h1, ih]

theorem GoMap.getD_set_self {K V : Type} [DecidableEq K] (m : GoMap K V) (k : K) (v d : V) :
    GoMap.getD (GoMap.set m k v) k d = v := by
  simp [GoMap.getD, GoMap.lookup_set_self]

theorem GoMap.getD_set_ne {K V : Type} [DecidableEq K] (m : GoMap K V) (k k1 : K) (v d : V)
    (hne : k ≠ k1) : GoMap.getD (GoMap.set m k v) k1 d = GoMap.getD m k1 d := by
  simp [GoMap.getD, GoMap.lookup_set_ne m k k1 v hne]

/-! ## Facts about `utf8.DecodeRuneInString` -/

theorem IsSpace_RuneError : IsSpace RuneError = false := by decide

theorem first_cases (b : Nat) :
    0xF0 ≤ first b ∨ (0xC2 ≤ b ∧ b ≤ 0xF4 ∧
      (first b % 8 = 2 ∨ first b % 8 = 3 ∨ first b % 8 = 4)) := by
  unfold first
  split_ifs <;> omega

theorem first_ascii {b : Nat} (h : b < 0x80) : first b = 0xF0 := by
  rw [first, if_pos h]

theorem first_high {b : Nat} (h : 0x80 ≤ b) : first b ≠ 0xF0 := by
  unfold first
  split_ifs <;> omega

theorem Lead.high {s0 n : Nat} (h : Lead s0 n) : 0xC2 ≤ s0 ∧ s0 ≤ 0xF4 := by
  rcases first_cases s0 with h1 | h1
  · have := h.1; omega
  · exact ⟨h1.1, h1.2.1⟩

theorem Lead.runeStart {s0 n : Nat} (h : Lead s0 n) : RuneStart s0 = true := by
  have := h.high
  simp [RuneStart]
  omega

theorem Cont.not_runeStart {b : Nat} (h : Cont b) : RuneStart b = false := by
  unfold Cont at h
  simp [RuneStart]
  omega

theorem Acc.cont {s0 s1 : Nat} (h : Acc s0 s1) : Cont s1 := by
  unfold Acc acceptLo acceptHi at h
  unfold Cont
  split_ifs at h <;> omega

theorem decode_nil : DecodeRuneInString [] = (RuneError, 0) := rfl

theorem decode_ascii {s0 : Nat} (rest : GoString) (h : s0 < 0x80) :
    DecodeRuneInString (s0 :: rest) = (s0, 1) := by
  simp [DecodeRuneInString, first_ascii h]

theorem decode_two {s0 s1 : Nat} (rest : GoString) (hl : Lead s0 2) (ha : Acc s0 s1) :
    DecodeRuneInString (s0 :: s1 :: rest) = (rune2 s0 s1, 2) := by
  obtain ⟨h1, h2⟩ := hl
  obtain ⟨h3, h4⟩ := ha
  simp only [DecodeRuneInString, List.length_cons]
  rw [if_neg (by omega), if_neg (by omega), if_neg (by omega), if_pos (by omega)]

theorem decode_three {s0 s1 s2 : Nat} (rest : GoString) (hl : Lead s0 3) (ha : Acc s0 s1)
    (hc : Cont s2) : DecodeRuneInString (s0 :: s1 :: s2 :: rest) = (rune3 s0 s1 s2, 3) := by
  obtain ⟨h1, h2⟩ := hl
  obtain ⟨h3, h4⟩ := ha
  obtain ⟨h5, h6⟩ := hc
  simp only [DecodeRuneInString, List.length_cons]
  rw [if_neg (by omega), if_neg (by omega), if_neg (by omega), if_neg (by omega),
    if_neg (by omega), if_pos (by omega)]

theorem decode_four {s0 s1 s2 s3 : Nat} (rest : GoString) (hl : Lead s0 4) (ha : Acc s0 s1)
    (hc : Cont s2) (hd : Cont s3) :
    DecodeRuneInString (s0 :: s1 :: s2 :: s3 :: rest) = (rune4 s0 s1 s2 s3, 4) := by
  obtain ⟨h1, h2⟩ := hl
  obtain ⟨h3, h4⟩ := ha
  obtain ⟨h5, h6⟩ := hc
  obtain ⟨h7, h8⟩ := hd
  simp only [DecodeRuneInString, List.length_cons]
  rw [if_neg (by omega), if_neg (by omega), if_neg (by omega), if_neg (by omega),
    if_neg (by omega), if_neg (by omega), if_neg (by omega)]

theorem first_high_invalid {b : Nat} (h : 0x80 ≤ b) (h2 : 0xF0 ≤ first b) :
    first b = 0xF1 := by
  revert h2
  unfold first
  split_ifs <;> intro h2 <;> omega

/-- Every result of `DecodeRuneInString` has one of the six shapes. -/
theorem decode_shape (x : GoString) : DecodeShape x (DecodeRuneInString x) := by
  rcases x with _ | ⟨s0, rest⟩
  · exact DecodeShape.empty
  · by_cases hasc : s0 < 0x80
    · rw [decode_ascii rest hasc]
      exact DecodeShape.ascii s0 rest hasc
    · have hhigh : 0x80 ≤ s0 := by omega
      by_cases h1 : 0xF0 ≤ first s0
      · have h2 := first_high_invalid hhigh h1
        simp only [DecodeRuneInString, h2]
        exact DecodeShape.invalid s0 rest hhigh
      · have hsz : first s0 % 8 = 2 ∨ first s0 % 8 = 3 ∨ first s0 % 8 = 4 := by
          rcases first_cases s0 with h | h
          · omega
          · exact h.2.2
        rcases rest with _ | ⟨s1, rest1⟩
        · simp only [DecodeRuneInString, List.length_cons, List.length_nil]
          rw [if_neg h1, if_pos (by omega)]
          exact DecodeShape.invalid _ _ hhigh
        by_cases hlen : (s0 :: s1 :: rest1).length < first s0 % 8
        · simp only [DecodeRuneInString]
          rw [if_neg h1, if_pos hlen]
          exact DecodeShape.invalid _ _ hhigh
        by_cases hacc : s1 < acceptLo (first s0 / 16) ∨ acceptHi (first s0 / 16) < s1
        · simp only [DecodeRuneInString]
          rw [if_neg h1, if_neg hlen, if_pos hacc]
          exact DecodeShape.invalid _ _ hhigh
        have hA : Acc s0 s1 := ⟨by omega, by omega⟩
        by_cases h2 : first s0 % 8 ≤ 2
        · simp only [DecodeRuneInString]
          rw [if_neg h1, if_neg hlen, if_neg hacc, if_pos h2]
          exact DecodeShape.two _ _ _ ⟨by omega, by omega⟩ hA
        rcases rest1 with _ | ⟨s2, rest2⟩
        · simp only [DecodeRuneInString]
          rw [if_neg h1, if_neg hlen, if_neg hacc, if_neg h2]
          exact DecodeShape.invalid _ _ hhigh
        by_cases hc2 : s2 < 0x80 ∨ 0xBF < s2
        · simp only [DecodeRuneInString]
          rw [if_neg h1, if_neg hlen, if_neg hacc, if_neg h2, if_pos hc2]
          exact DecodeShape.invalid _ _ hhigh
        have hC2 : Cont s2 := ⟨by omega, by omega⟩
        by_cases h3 : first s0 % 8 ≤ 3
        · simp only [DecodeRuneInString]
          rw [if_neg h1, if_neg hlen, if_neg hacc, if_neg h2, if_neg hc2, if_pos h3]
          exact DecodeShape.three _ _ _ _ ⟨by omega, by omega⟩ hA hC2
        rcases rest2 with _ | ⟨s3, rest3⟩
        · simp only [DecodeRuneInString]
          rw [if_neg h1, if_neg hlen, if_neg hacc, if_neg h2, if_neg hc2, if_neg h3]
          exact DecodeShape.invalid _ _ hhigh
        by_cases hc3 : s3 < 0x80 ∨ 0xBF < s3
        · simp only [DecodeRuneInString]
          rw [if_neg h1, if_neg hlen, if_neg hacc, if_neg h2, if_neg hc2, if_neg h3, if_pos hc3]
          exact DecodeShape.invalid _ _ hhigh
        · simp only [DecodeRuneInString]
          rw [if_neg h1, if_neg hlen, if_neg hacc, if_neg h2, if_neg hc2, if_neg h3, if_neg hc3]
          exact DecodeShape.four _ _ _ _ _ ⟨by omega, by omega⟩ hA hC2 ⟨by omega, by omega⟩

theorem decode_width_le (x : GoString) : (DecodeRuneInString x).2 ≤ x.length := by
  have h := decode_shape x
  generalize DecodeRuneInString x = d at h
  cases h <;> simp

theorem decode_width_pos (x : GoString) (hx : x ≠ []) : 1 ≤ (DecodeRuneInString x).2 := by
  have h := decode_shape x
  generalize DecodeRuneInString x = d at h
  cases h <;> simp at hx ⊢

theorem decode_width_le_four (x : GoString) : (DecodeRuneInString x).2 ≤ 4 := by
  have h := decode_shape x
  generalize DecodeRuneInString x = d at h
  cases h <;> simp

/-- Decoding a prefix gives the same rune as decoding the whole string, or an error
of width at most one. -/
theorem decode_append (y z : GoString) :
    DecodeRuneInString y = DecodeRuneInString (y ++ z)
    ∨ ((DecodeRuneInString y).1 = RuneError ∧ (DecodeRuneInString y).2 ≤ 1) := by
  have h := decode_shape y
  generalize DecodeRuneInString y = d at h
  cases h with
  | empty => right; simp
  | ascii s0 rest h0 => left; rw [List.cons_append, decode_ascii _ h0]
  | invalid s0 rest h0 => right; simp
  | two s0 s1 rest hl ha =>
    left; rw [List.cons_append, List.cons_append, decode_two _ hl ha]
  | three s0 s1 s2 rest hl ha hc =>
    left; rw [List.cons_append, List.cons_append, List.cons_append, decode_three _ hl ha hc]
  | four s0 s1 s2 s3 rest hl ha hc hd =>
    left
    rw [List.cons_append, List.cons_append, List.cons_append, List.cons_append,
      decode_four _ hl ha hc hd]

theorem decode_take (x : GoString) (k : Nat) :
    DecodeRuneInString (x.take k) = DecodeRuneInString x
    ∨ ((DecodeRuneInString (x.take k)).1 = RuneError
        ∧ (DecodeRuneInString (x.take k)).2 ≤ 1) := by
  have h := decode_append (x.take k) (x.drop k)
  rwa [List.take_append_drop] at h

/-- A prefix that contains the whole first rune decodes to it. -/
theorem decode_take_of_width_le (x : GoString) (k : Nat) (hk : (DecodeRuneInString x).2 ≤ k)
    (hk1 : 1 ≤ k) : DecodeRuneInString (x.take k) = DecodeRuneInString x := by
  have h := decode_shape x
  generalize hd : DecodeRuneInString x = d at h hk
  cases h with
  | empty => simpa using hd
  | ascii s0 rest h0 =>
    obtain ⟨k, rfl⟩ : ∃ j, k = j + 1 := ⟨k - 1, by omega⟩
    rw [List.take_succ_cons, decode_ascii _ h0]
  | invalid s0 rest h0 =>
    obtain ⟨k, rfl⟩ : ∃ j, k = j + 1 := ⟨k - 1, by omega⟩
    rcases decode_take (s0 :: rest) (k + 1) with h | h
    · rw [h, hd]
    · have hp := decode_width_pos ((s0 :: rest).take (k + 1)) (by simp)
      apply Prod.ext
      · exact h.1
      · simp only; omega
  | two s0 s1 rest hl ha =>
    simp only at hk
    obtain ⟨k, rfl⟩ : ∃ j, k = j + 2 := ⟨k - 2, by omega⟩
    rw [List.take_succ_cons, List.take_succ_cons, decode_two _ hl ha]
  | three s0 s1 s2 rest hl ha hc =>
    simp only at hk
    obtain ⟨k, rfl⟩ : ∃ j, k = j + 3 := ⟨k - 3, by omega⟩
    rw [List.take_succ_cons, List.take_succ_cons, List.take_succ_cons, decode_three _ hl ha hc]
  | four s0 s1 s2 s3 rest hl ha hc hc3 =>
    simp only at hk
    obtain ⟨k, rfl⟩ : ∃ j, k = j + 4 := ⟨k - 4, by omega⟩
    rw [List.take_succ_cons, List.take_succ_cons, List.take_succ_cons, List.take_succ_cons,
      decode_four _ hl ha hc hc3]

/-- The first rune of a prefix is no white space when the first rune of the whole
string is none. -/
theorem decode_take_not_space (x : GoString) (k : Nat)
    (h : IsSpace (DecodeRuneInString x).1 = false) :
    IsSpace (DecodeRuneInString (x.take k)).1 = false := by
  rcases decode_take x k with h1 | h1
  · rw [h1]; exact h
  · rw [h1.1]; exact IsSpace_RuneError

/-! ## Facts about `utf8.DecodeLastRuneInString` -/

theorem scanStart_le (s : GoString) (e lim : Nat) :
    ∀ n k, scanStart s e lim n k ≤ (e : Int) - (k : Int) := by
  intro n
  induction n with
  | zero => intro k; simp [scanStart]
  | succ n ih =>
    intro k
    simp only [scanStart]
    split_ifs
    · exact le_refl _
    · have := ih (k + 1)
      push_cast at this
      omega
    · exact le_refl _

theorem scanStart_two (s : GoString) (e : Nat) (he : 2 ≤ e)
    (h2 : RuneStart (s.getD (e - 2) 0) = true) :
    scanStart s e (e - 4) 4 2 = (e : Int) - 2 := by
  simp only [scanStart]
  rw [if_pos (by omega), if_pos h2]
  rfl

theorem scanStart_three (s : GoString) (e : Nat) (he : 3 ≤ e)
    (h2 : RuneStart (s.getD (e - 2) 0) = false)
    (h3 : RuneStart (s.getD (e - 3) 0) = true) :
    scanStart s e (e - 4) 4 2 = (e : Int) - 3 := by
  simp only [scanStart]
  rw [if_pos (by omega), if_neg (by rw [h2]; simp), if_pos (by omega), if_pos h3]
  rfl

theorem scanStart_four (s : GoString) (e : Nat) (he : 4 ≤ e)
    (h2 : RuneStart (s.getD (e - 2) 0) = false)
    (h3 : RuneStart (s.getD (e - 3) 0) = false)
    (h4 : RuneStart (s.getD (e - 4) 0) = true) :
    scanStart s e (e - 4) 4 2 = (e : Int) - 4 := by
  simp only [scanStart]
  rw [if_pos (by omega), if_neg (by rw [h2]; simp), if_pos (by omega), if_neg (by rw [h3]; simp),
    if_pos (by omega), if_pos h4]
  rfl

theorem decodeLast_nil : DecodeLastRuneInString [] = (RuneError, 0) := rfl

theorem decodeLast_ascii (s : GoString) (hs : s ≠ [])
    (h : s.getD (s.length - 1) 0 < RuneSelf) :
    DecodeLastRuneInString s = (s.getD (s.length - 1) 0, 1) := by
  have hl : s.length ≠ 0 := by simpa using hs
  simp only [DecodeLastRuneInString]
  rw [if_neg hl, if_pos h]

/-- On a string that is not empty, `DecodeLastRuneInString` returns a width between
one and the length. -/
theorem decodeLast_width (s : GoString) (hs : s ≠ []) :
    1 ≤ (DecodeLastRuneInString s).2 ∧ (DecodeLastRuneInString s).2 ≤ s.length := by
  have hl : s.length ≠ 0 := by simpa using hs
  simp only [DecodeLastRuneInString]
  rw [if_neg hl]
  split_ifs with h1 h2
  · simp; omega
  · simp; omega
  · have hscan := scanStart_le s s.length (s.length - 4) 4 2
    have hw := decode_width_le (s.drop (scanStart s s.length (s.length - 4) 4 2).toNat)
    have hp := decode_width_pos (s.drop (scanStart s s.length (s.length - 4) 4 2).toNat)
      (by
        intro h
        have := congrArg List.length h
        simp only [List.length_drop, List.length_nil] at this
        omega)
    push_neg at h2
    constructor
    · exact hp
    · omega

/-- A last rune of two or more bytes is what `DecodeRuneInString` reads at its
start. -/
theorem decodeLast_multi (s : GoString) (h : 2 ≤ (DecodeLastRuneInString s).2) :
    DecodeRuneInString (s.drop (s.length - (DecodeLastRuneInString s).2))
      = DecodeLastRuneInString s := by
  revert h
  simp only [DecodeLastRuneInString]
  split_ifs with h0 h1 h2
  · simp
  · simp
  · simp
  · intro _
    push_neg at h2
    have : s.length - (DecodeRuneInString
        (s.drop (scanStart s s.length (s.length - 4) 4 2).toNat)).2
        = (scanStart s s.length (s.length - 4) 4 2).toNat := by omega
    rw [this]

theorem getD_append_add (pre enc : GoString) (j : Nat) :
    (pre ++ enc).getD (pre.length + j) 0 = enc.getD j 0 := by
  simp [List.getD_eq_getElem?_getD, List.getElem?_append_right]

/-- After any bytes `pre`, a string that is exactly one valid encoding of two to
four bytes is what `DecodeLastRuneInString` finds at the end. -/
theorem decodeLast_append_enc (pre enc : GoString)
    (hw : (DecodeRuneInString enc).2 = enc.length) (h2 : 2 ≤ enc.length) :
    DecodeLastRuneInString (pre ++ enc) = DecodeRuneInString enc := by
  have h := decode_shape enc
  generalize hd : DecodeRuneInString enc = d at h hw
  have hl : (pre ++ enc).length ≠ 0 := by rw [List.length_append]; omega
  cases h with
  | empty => simp at h2
  | ascii s0 rest h0 => simp only [List.length_cons] at hw h2; omega
  | invalid s0 rest h0 => simp only [List.length_cons] at hw h2; omega
  | two s0 s1 rest hl2 ha =>
    have hr : rest = [] := by simpa using hw
    subst hr
    have e1 : (pre ++ [s0, s1]).length - 1 = pre.length + 1 := by simp
    have e2 : (pre ++ [s0, s1]).length - 2 = pre.length + 0 := by simp
    have hlast : (pre ++ [s0, s1]).getD ((pre ++ [s0, s1]).length - 1) 0 = s1 := by
      rw [e1, getD_append_add]; rfl
    have hsc : scanStart (pre ++ [s0, s1]) (pre ++ [s0, s1]).length
        ((pre ++ [s0, s1]).length - 4) 4 2 = ((pre ++ [s0, s1]).length : Int) - 2 := by
      apply scanStart_two _ _ (by simp)
      rw [e2, getD_append_add]
      exact hl2.runeStart
    have hst : (((pre ++ [s0, s1]).length : Int) - 2).toNat = pre.length := by
      simp
    simp only [DecodeLastRuneInString]
    rw [if_neg hl, hlast, if_neg (by have := ha.cont.1; simp [RuneSelf]; omega), hsc, hst,
      List.drop_left, hd, if_neg (by simp)]
  | three s0 s1 s2 rest hl3 ha hc =>
    have hr : rest = [] := by simpa using hw
    subst hr
    have e1 : (pre ++ [s0, s1, s2]).length - 1 = pre.length + 2 := by simp
    have e2 : (pre ++ [s0, s1, s2]).length - 2 = pre.length + 1 := by simp
    have e3 : (pre ++ [s0, s1, s2]).length - 3 = pre.length + 0 := by simp
    have hlast : (pre ++ [s0, s1, s2]).getD ((pre ++ [s0, s1, s2]).length - 1) 0 = s2 := by
      rw [e1, getD_append_add]; rfl
    have hsc : scanStart (pre ++ [s0, s1, s2]) (pre ++ [s0, s1, s2]).length
        ((pre ++ [s0, s1, s2]).length - 4) 4 2
        = ((pre ++ [s0, s1, s2]).length : Int) - 3 := by
      apply scanStart_three _ _ (by simp)
      · rw [e2, getD_append_add]
        exact ha.cont.not_runeStart
      · rw [e3, getD_append_add]
        exact hl3.runeStart
    have hst : (((pre ++ [s0, s1, s2]).length : Int) - 3).toNat = pre.length := by
      simp
    simp only [DecodeLastRuneInString]
    rw [if_neg hl, hlast, if_neg (by have := hc.1; simp [RuneSelf]; omega), hsc, hst,
      List.drop_left, hd, if_neg (by simp)]
  | four s0 s1 s2 s3 rest hl4 ha hc hc3 =>
    have hr : rest = [] := by simpa using hw
    subst hr
    have e1 : (pre ++ [s0, s1, s2, s3]).length - 1 = pre.length + 3 := by simp
    have e2 : (pre ++ [s0, s1, s2, s3]).length - 2 = pre.length + 2 := by simp
    have e3 : (pre ++ [s0, s1, s2, s3]).length - 3 = pre.length + 1 := by simp
    have e4 : (pre ++ [s0, s1, s2, s3]).length - 4 = pre.length + 0 := by simp
    have hlast : (pre ++ [s0, s1, s2, s3]).getD ((pre ++ [s0, s1, s2, s3]).length - 1) 0
        = s3 := by
      rw [e1, getD_append_add]; rfl
    have hsc : scanStart (pre ++ [s0, s1, s2, s3]) (pre ++ [s0, s1, s2, s3]).length
        ((pre ++ [s0, s1, s2, s3]).length - 4) 4 2
        = ((pre ++ [s0, s1, s2, s3]).length : Int) - 4 := by
      apply scanStart_four _ _ (by simp)
      · rw [e2, getD_append_add]
        exact hc.not_runeStart
      · rw [e3, getD_append_add]
        exact ha.cont.not_runeStart
      · rw [e4, getD_append_add]
        exact hl4.runeStart
    have hst : (((pre ++ [s0, s1, s2, s3]).length : Int) - 4).toNat = pre.length := by
      simp
    simp only [DecodeLastRuneInString]
    rw [if_neg hl, hlast, if_neg (by have := hc3.1; simp [RuneSelf]; omega), hsc, hst,
      List.drop_left, hd, if_neg (by simp)]

/-! ## `strings.TrimRightFunc` leaves no trailing rune that satisfies `f` -/

theorem decode_lead (x : GoString) (h : 2 ≤ (DecodeRuneInString x).2) :
    RuneStart (x.getD 0 0) = true ∧ 0x80 ≤ x.getD 0 0 := by
  have hs := decode_shape x
  generalize DecodeRuneInString x = d at hs h
  cases hs with
  | empty => simp at h
  | ascii s0 rest h0 => simp at h
  | invalid s0 rest h0 => simp at h
  | two s0 s1 rest hl ha => exact ⟨hl.runeStart, by have := hl.high; simp; omega⟩
  | three s0 s1 s2 rest hl ha hc => exact ⟨hl.runeStart, by have := hl.high; simp; omega⟩
  | four s0 s1 s2 s3 rest hl ha hc hc3 =>
    exact ⟨hl.runeStart, by have := hl.high; simp; omega⟩

theorem decode_cont (x : GoString) (j : Nat) (h1 : 1 ≤ j) (h2 : j < (DecodeRuneInString x).2) :
    RuneStart (x.getD j 0) = false := by
  have hs := decode_shape x
  generalize DecodeRuneInString x = d at hs h2
  cases hs with
  | empty => simp at h2
  | ascii s0 rest h0 => simp at h2; omega
  | invalid s0 rest h0 => simp at h2; omega
  | two s0 s1 rest hl ha =>
    simp only at h2
    obtain rfl : j = 1 := by omega
    exact ha.cont.not_runeStart
  | three s0 s1 s2 rest hl ha hc =>
    simp only at h2
    obtain rfl | rfl : j = 1 ∨ j = 2 := by omega
    · exact ha.cont.not_runeStart
    · exact hc.not_runeStart
  | four s0 s1 s2 s3 rest hl ha hc hc3 =>
    simp only at h2
    obtain rfl | rfl | rfl : j = 1 ∨ j = 2 ∨ j = 3 := by omega
    · exact ha.cont.not_runeStart
    · exact hc.not_runeStart
    · exact hc3.not_runeStart

theorem getD_drop (u : GoString) (q j : Nat) : (u.drop q).getD j 0 = u.getD (q + j) 0 := by
  simp [List.getD_eq_getElem?_getD, List.getElem?_drop]

theorem getD_take (u : GoString) (i j : Nat) (h : j < i) :
    (u.take i).getD j 0 = u.getD j 0 := by
  simp [List.getD_eq_getElem?_getD, List.getElem?_take, h]

/-- The loop of `lastIndexFunc` starts at the end of the string, which no encoding
reaches beyond. -/
theorem noStraddle_length (u : GoString) : NoStraddle u u.length := by
  intro q hq
  have := decode_width_le (u.drop q)
  simp only [List.length_drop] at this
  omega

/-- One iteration of the loop of `lastIndexFunc` moves from offset `i` to the start
of the last rune of `u[:i]` and keeps `NoStraddle`. -/
theorem noStraddle_step (u : GoString) (i : Nat) (hi : i ≤ u.length) (hpos : 0 < i)
    (hJ : NoStraddle u i) :
    NoStraddle u (i - (DecodeLastRuneInString (u.take i)).2) := by
  have hlen : (u.take i).length = i := by simp [hi]
  have hne : u.take i ≠ [] := by
    intro h
    rw [h] at hlen
    simp at hlen
    omega
  obtain ⟨hw1, hw2⟩ := decodeLast_width (u.take i) hne
  rw [hlen] at hw2
  intro q hq
  have hqi := hJ q (by omega)
  by_contra hcon
  push_neg at hcon
  by_cases hsz : 2 ≤ (DecodeLastRuneInString (u.take i)).2
  · -- the last rune is a multi-byte rune; its first byte is a rune start
    have hm := decodeLast_multi (u.take i) hsz
    rw [hlen] at hm
    have hlead := (decode_lead _ (by rw [hm]; exact hsz)).1
    rw [getD_drop, getD_take _ _ _ (by omega)] at hlead
    have hc := decode_cont (u.drop q) (i - (DecodeLastRuneInString (u.take i)).2 - q)
      (by omega) (by omega)
    rw [getD_drop] at hc
    have e : q + (i - (DecodeLastRuneInString (u.take i)).2 - q)
        = i - (DecodeLastRuneInString (u.take i)).2 + 0 := by omega
    rw [e] at hc
    rw [hc] at hlead
    exact Bool.false_ne_true hlead
  · -- the last rune has width one, but an encoding from `q` ends exactly at `i`
    have hw : q + (DecodeRuneInString (u.drop q)).2 = i := by omega
    have hw2' : 2 ≤ (DecodeRuneInString (u.drop q)).2 := by omega
    have hsplit : u.take i
        = u.take q ++ (u.drop q).take (DecodeRuneInString (u.drop q)).2 := by
      rw [← hw, List.take_add]
    have henc := decode_take_of_width_le (u.drop q) (DecodeRuneInString (u.drop q)).2
      (le_refl _) (by omega)
    have hencl : ((u.drop q).take (DecodeRuneInString (u.drop q)).2).length
        = (DecodeRuneInString (u.drop q)).2 := by
      rw [List.length_take, List.length_drop]
      omega
    have := decodeLast_append_enc (u.take q)
      ((u.drop q).take (DecodeRuneInString (u.drop q)).2)
      (by rw [henc, hencl]) (by rw [hencl]; exact hw2')
    rw [← hsplit, henc] at this
    rw [this] at hsz
    exact hsz hw2'

/-- What the loop of `lastIndexFunc` returns: `-1`, or the start of the last rune
of some prefix `u[:i']` whose last rune does not satisfy `f`. -/
theorem lastIndexFuncFrom_spec (f : Nat → Bool) (u : GoString) :
    ∀ n i, i ≤ u.length → NoStraddle u i →
      lastIndexFuncFrom f u n i = -1
      ∨ ∃ i', 0 < i' ∧ i' ≤ u.length ∧ NoStraddle u i'
          ∧ f (DecodeLastRuneInString (u.take i')).1 = false
          ∧ lastIndexFuncFrom f u n i
              = ((i' - (DecodeLastRuneInString (u.take i')).2 : Nat) : Int) := by
  intro n
  induction n with
  | zero => intro i _ _; left; rfl
  | succ n ih =>
    intro i hi hJ
    simp only [lastIndexFuncFrom]
    by_cases hpos : 0 < i
    · rw [if_pos hpos]
      by_cases hf : f (DecodeLastRuneInString (u.take i)).1 = false
      · rw [if_pos hf]
        right
        exact ⟨i, hpos, hi, hJ, hf, rfl⟩
      · rw [if_neg hf]
        exact ih _ (by omega) (noStraddle_step u i hi hpos hJ)
    · rw [if_neg hpos]
      left; rfl

theorem TrimRightFunc_eq_take (u : GoString) (f : Nat → Bool) :
    ∃ m, TrimRightFunc u f = u.take m := by
  simp only [TrimRightFunc]
  split_ifs
  · exact ⟨_, rfl⟩
  · exact ⟨_, rfl⟩

/-- The last rune of `TrimRightFunc u f` does not satisfy `f`. -/
theorem TrimRightFunc_last (u : GoString) (f : Nat → Bool) (hf : f RuneError = false) :
    f (DecodeLastRuneInString (TrimRightFunc u f)).1 = false := by
  rcases lastIndexFuncFrom_spec f u u.length u.length (le_refl _) (noStraddle_length u)
    with h | ⟨i', hpos, hi, hJ, hfd, h⟩
  · simp only [TrimRightFunc, h]
    rw [if_neg (by omega)]
    simpa [decodeLast_nil] using hf
  · have hlen : (u.take i').length = i' := by simp [hi]
    have hne : u.take i' ≠ [] := by
      intro h0
      rw [h0] at hlen
      simp at hlen
      omega
    obtain ⟨hw1, hw2⟩ := decodeLast_width (u.take i') hne
    rw [hlen] at hw2
    have key : TrimRightFunc u f = u.take i' := by
      simp only [TrimRightFunc, h, Int.toNat_ofNat]
      by_cases hsz : 2 ≤ (DecodeLastRuneInString (u.take i')).2
      · have hm := decodeLast_multi (u.take i') hsz
        rw [hlen] at hm
        have hlead := (decode_lead _ (by rw [hm]; exact hsz)).2
        rw [getD_drop, getD_take _ _ _ (by omega), Nat.add_zero] at hlead
        rw [if_pos ⟨by omega, by simpa [RuneSelf] using hlead⟩]
        have hd : DecodeRuneInString (u.drop (i' - (DecodeLastRuneInString (u.take i')).2))
            = DecodeLastRuneInString (u.take i') := by
          rw [List.drop_take] at hm
          rcases decode_take (u.drop (i' - (DecodeLastRuneInString (u.take i')).2))
            (i' - (i' - (DecodeLastRuneInString (u.take i')).2)) with h1 | h1
          · rw [← h1, hm]
          · rw [hm] at h1
            omega
        rw [hd]
        congr 1
        omega
      · have hsz1 : (DecodeLastRuneInString (u.take i')).2 = 1 := by omega
        have hJ' := hJ (i' - 1) (by omega)
        have hp := decode_width_pos (u.drop (i' - 1)) (by
          intro h0
          have := congrArg List.length h0
          simp only [List.length_drop, List.length_nil] at this
          omega)
        rw [hsz1]
        split_ifs
        · congr 1; omega
        · congr 1
          have : ((i' - 1 : Nat) : Int) + 1 = ((i' : Nat) : Int) := by omega
          rw [this, Int.toNat_ofNat]
    rw [key]
    exact hfd

/-! ## `strings.TrimSpace` -/

theorem IsSpace_ascii {c : Nat} (h : c < 0x80) : IsSpace c = asciiSpace c := by
  have h1 : c ≤ 0xFF := by omega
  have h2 : c ≠ 0x85 := by omega
  have h3 : c ≠ 0xA0 := by omega
  simp [IsSpace, asciiSpace, h1, h2, h3]

/-- What the loop of `indexFunc` returns: `-1`, or `i` plus the offset of a rune that
does not satisfy `f`. -/
theorem indexFuncFrom_spec (f : Nat → Bool) :
    ∀ n (s : GoString) (i : Nat),
      indexFuncFrom f n s i = -1
      ∨ ∃ j, indexFuncFrom f n s i = ((i + j : Nat) : Int)
          ∧ f (DecodeRuneInString (s.drop j)).1 = false := by
  intro n
  induction n with
  | zero => intro s i; left; rfl
  | succ n ih =>
    intro s i
    rcases s with _ | ⟨c, rest⟩
    · left; rfl
    · simp only [indexFuncFrom]
      by_cases hf : f (DecodeRuneInString (c :: rest)).1 = false
      · rw [if_pos hf]
        right
        exact ⟨0, rfl, hf⟩
      · rw [if_neg hf]
        rcases ih ((c :: rest).drop (DecodeRuneInString (c :: rest)).2)
          (i + (DecodeRuneInString (c :: rest)).2) with h | ⟨j, h1, h2⟩
        · left; exact h
        · right
          refine ⟨(DecodeRuneInString (c :: rest)).2 + j, ?_, ?_⟩
          · rw [h1, Nat.add_assoc]
          · rw [List.drop_drop] at h2
            exact h2

theorem TrimLeftFunc_first (s : GoString) (f : Nat → Bool) (hf : f RuneError = false) :
    f (DecodeRuneInString (TrimLeftFunc s f)).1 = false := by
  simp only [TrimLeftFunc]
  rcases indexFuncFrom_spec f s.length s 0 with h | ⟨j, h1, h2⟩
  · rw [if_pos h]
    simpa [decode_nil] using hf
  · rw [h1, if_neg (by omega)]
    simpa using h2

theorem TrimLeftFunc_sublist (s : GoString) (f : Nat → Bool) :
    (TrimLeftFunc s f).Sublist s := by
  simp only [TrimLeftFunc]
  split_ifs
  · exact List.nil_sublist _
  · exact List.drop_sublist _ _

theorem TrimRightFunc_sublist (s : GoString) (f : Nat → Bool) :
    (TrimRightFunc s f).Sublist s := by
  obtain ⟨m, hm⟩ := TrimRightFunc_eq_take s f
  rw [hm]
  exact List.take_sublist _ _

theorem trimSpaceStop_eq_take (t : GoString) : ∀ n, ∃ m, trimSpaceStop t n = t.take m := by
  intro n
  induction n with
  | zero => exact ⟨0, by simp [trimSpaceStop]⟩
  | succ n ih =>
    simp only [trimSpaceStop]
    split_ifs
    · obtain ⟨m, hm⟩ := TrimRightFunc_eq_take (t.take (n + 1)) IsSpace
      exact ⟨min m (n + 1), by rw [hm, List.take_take]⟩
    · exact ⟨_, rfl⟩
    · exact ih

theorem trimSpaceStop_last (t : GoString) :
    ∀ n, n ≤ t.length → IsSpace (DecodeLastRuneInString (trimSpaceStop t n)).1 = false := by
  intro n
  induction n with
  | zero => intro _; simp [trimSpaceStop, decodeLast_nil, IsSpace_RuneError]
  | succ n ih =>
    intro hn
    simp only [trimSpaceStop]
    split_ifs with h1 h2
    · exact TrimRightFunc_last _ _ IsSpace_RuneError
    · have hlen : (t.take (n + 1)).length = n + 1 := by simp; omega
      have hne : t.take (n + 1) ≠ [] := by
        intro h0
        rw [h0] at hlen
        simp at hlen
      have hlast : (t.take (n + 1)).getD ((t.take (n + 1)).length - 1) 0 = t.getD n 0 := by
        rw [hlen, Nat.add_sub_cancel, getD_take _ _ _ (by omega)]
      rw [decodeLast_ascii _ hne (by rw [hlast]; omega), hlast]
      rw [IsSpace_ascii (by simp only [RuneSelf] at h1; omega)]
      exact h2
    · exact ih (by omega)

/-- The result of `TrimSpace` is a part of its argument. -/
theorem TrimSpace_sublist : ∀ s : GoString, (TrimSpace s).Sublist s := by
  intro s
  induction s with
  | nil => simp [TrimSpace]
  | cons c rest ih =>
    simp only [TrimSpace]
    split_ifs
    · exact (TrimRightFunc_sublist _ _).trans (TrimLeftFunc_sublist _ _)
    · obtain ⟨m, hm⟩ := trimSpaceStop_eq_take (c :: rest) (c :: rest).length
      rw [hm]
      exact List.take_sublist _ _
    · exact ih.trans (List.sublist_cons_self _ _)

/-- The first rune of `TrimSpace s` is no white space. -/
theorem TrimSpace_first : ∀ s : GoString, IsSpace (DecodeRuneInString (TrimSpace s)).1 = false := by
  intro s
  induction s with
  | nil => simp [TrimSpace, decode_nil, IsSpace_RuneError]
  | cons c rest ih =>
    simp only [TrimSpace]
    split_ifs with h1 h2
    · obtain ⟨m, hm⟩ := TrimRightFunc_eq_take (TrimLeftFunc (c :: rest) IsSpace) IsSpace
      simp only [TrimFunc]
      rw [hm]
      exact decode_take_not_space _ _ (TrimLeftFunc_first _ _ IsSpace_RuneError)
    · obtain ⟨m, hm⟩ := trimSpaceStop_eq_take (c :: rest) (c :: rest).length
      rw [hm]
      apply decode_take_not_space
      have hc : c < 0x80 := by simp only [RuneSelf] at h1; omega
      rw [decode_ascii _ hc, IsSpace_ascii hc]
      exact h2
    · exact ih

/-- The last rune of `TrimSpace s` is no white space. -/
theorem TrimSpace_last : ∀ s : GoString,
    IsSpace (DecodeLastRuneInString (TrimSpace s)).1 = false := by
  intro s
  induction s with
  | nil => simp [TrimSpace, decodeLast_nil, IsSpace_RuneError]
  | cons c rest ih =>
    simp only [TrimSpace]
    split_ifs with h1 h2
    · exact TrimRightFunc_last _ _ IsSpace_RuneError
    · exact trimSpaceStop_last _ _ (le_refl _)
    · exact ih

/-! ## The iteration bounds of the loops are large enough -/

/-- The backward scan of `DecodeLastRuneInString` stops within four iterations. -/
theorem scanStart_fuel (s : GoString) (e n : Nat) :
    scanStart s e (e - 4) (n + 4) 2 = scanStart s e (e - 4) 4 2 := by
  simp only [scanStart]
  split_ifs <;> first | rfl | omega

/-- The loop of `indexFunc` ends within `s.length` iterations: a larger bound gives
the same result. -/
theorem indexFuncFrom_fuel (f : Nat → Bool) :
    ∀ n m (s : GoString) (i : Nat), s.length ≤ n → s.length ≤ m →
      indexFuncFrom f n s i = indexFuncFrom f m s i := by
  intro n
  induction n with
  | zero =>
    intro m s i hn _
    have hs : s = [] := List.length_eq_zero.mp (by omega)
    subst hs
    cases m <;> rfl
  | succ n ih =>
    intro m s i hn hm
    rcases s with _ | ⟨c, rest⟩
    · cases m <;> rfl
    · obtain ⟨m, rfl⟩ : ∃ j, m = j + 1 := ⟨m - 1, by simp at hm; omega⟩
      simp only [indexFuncFrom]
      split_ifs
      · rfl
      · have hp := decode_width_pos (c :: rest) (by simp)
        apply ih
        · simp only [List.length_drop]; omega
        · simp only [List.length_drop]; omega

/-- The loop of `lastIndexFunc` ends within `i` iterations: a larger bound gives the
same result. -/
theorem lastIndexFuncFrom_fuel (f : Nat → Bool) (u : GoString) :
    ∀ n m i, i ≤ u.length → i ≤ n → i ≤ m →
      lastIndexFuncFrom f u n i = lastIndexFuncFrom f u m i := by
  intro n
  induction n with
  | zero =>
    intro m i _ hn _
    obtain rfl : i = 0 := by omega
    cases m
    · rfl
    · simp [lastIndexFuncFrom]
  | succ n ih =>
    intro m i hi hn hm
    by_cases hpos : 0 < i
    · obtain ⟨m, rfl⟩ : ∃ j, m = j + 1 := ⟨m - 1, by omega⟩
      simp only [lastIndexFuncFrom]
      rw [if_pos hpos, if_pos hpos]
      split_ifs
      · rfl
      · have hw := (decodeLast_width (u.take i) (by
          intro h0
          have := congrArg List.length h0
          simp only [List.length_take, List.length_nil] at this
          omega)).1
        apply ih <;> omega
    · obtain rfl : i = 0 := by omega
      cases m <;> simp [lastIndexFuncFrom]

/-- The loop of `RuneCountInString` ends within `s.length` iterations: a larger
bound gives the same result. -/
theorem runeCountFrom_fuel :
    ∀ n m (s : GoString), s.length ≤ n → s.length ≤ m → runeCountFrom n s = runeCountFrom m s := by
  intro n
  induction n with
  | zero =>
    intro m s hn _
    have hs : s = [] := List.length_eq_zero.mp (by omega)
    subst hs
    cases m <;> rfl
  | succ n ih =>
    intro m s hn hm
    rcases s with _ | ⟨c, rest⟩
    · cases m <;> rfl
    · obtain ⟨m, rfl⟩ : ∃ j, m = j + 1 := ⟨m - 1, by simp at hm; omega⟩
      simp only [runeCountFrom]
      have hp := decode_width_pos (c :: rest) (by simp)
      congr 1
      apply ih
      · simp only [List.length_drop]; omega
      · simp only [List.length_drop]; omega

/-- A string has at most as many runes as bytes. -/
theorem runeCountFrom_le (n : Nat) : ∀ s : GoString, runeCountFrom n s ≤ s.length := by
  induction n with
  | zero => intro s; simp [runeCountFrom]
  | succ n ih =>
    intro s
    rcases s with _ | ⟨c, rest⟩
    · simp [runeCountFrom]
    · simp only [runeCountFrom]
      have hp := decode_width_pos (c :: rest) (by simp)
      have := ih ((c :: rest).drop (DecodeRuneInString (c :: rest)).2)
      simp only [List.length_drop, List.length_cons] at this
      simp only [List.length_cons]
      omega

theorem RuneCountInString_le (s : GoString) : RuneCountInString s ≤ s.length :=
  runeCountFrom_le _ _

/-! ## `sanitizeFileName`: forbidden bytes and length -/

theorem mem_replaceByte {name : GoString} {ch b : Nat} (hb : b ∈ replaceByte name ch) :
    b ≠ ch ∨ ch = 95 := by
  simp only [replaceByte, List.mem_map] at hb
  obtain ⟨x, _, hx⟩ := hb
  by_cases h : x = ch
  · simp [h] at hx
    by_cases h95 : ch = 95
    · exact Or.inr h95
    · left; rw [← hx]; exact fun h' => h95 h'.symm
  · simp [h] at hx
    left; rw [← hx]; exact h

theorem mem_replaceByte_of_ne {name : GoString} {ch b d : Nat} (hb : b ∈ replaceByte name ch)
    (hd : ∀ x ∈ name, x ≠ d) (h95 : d ≠ 95) : b ≠ d := by
  simp only [replaceByte, List.mem_map] at hb
  obtain ⟨x, hx, hxb⟩ := hb
  by_cases h : x = ch
  · simp [h] at hxb
    rw [← hxb]; exact fun h' => h95 h'.symm
  · simp [h] at hxb
    rw [← hxb]; exact hd x hx

/-- After the replacement loop over `chs`, no byte of `chs` other than `_` is left,
and bytes that were absent before stay absent. -/
theorem foldl_replaceByte_clean (chs : List Nat) (h95 : 95 ∉ chs) :
    ∀ (name : GoString) (gone : List Nat), 95 ∉ gone → (∀ x ∈ name, x ∉ gone) →
      ∀ b ∈ chs.foldl replaceByte name, b ∉ gone ∧ b ∉ chs := by
  induction chs with
  | nil =>
    intro name gone _ hgone b hb
    exact ⟨hgone b hb, by simp⟩
  | cons ch rest ih =>
    intro name gone hg hgone b hb
    simp only [List.foldl_cons] at hb
    have hch : ch ≠ 95 := fun h => h95 (by simp [h])
    have hrest : 95 ∉ rest := fun h => h95 (List.mem_cons_of_mem _ h)
    have key := ih hrest (replaceByte name ch) (ch :: gone)
      (by simp [hg]; exact fun h => hch h.symm)
      (by
        intro x hx hmem
        rcases List.mem_cons.mp hmem with h | h
        · rcases mem_replaceByte hx with h1 | h1
          · exact h1 h
          · exact hch h1
        · exact mem_replaceByte_of_ne hx (fun y hy hyd => hgone y hy (hyd ▸ h))
            (fun h' => hg (h' ▸ h)) rfl)
      b hb
    obtain ⟨k1, k2⟩ := key
    refine ⟨fun h => k1 (List.mem_cons_of_mem _ h), ?_⟩
    intro h
    rcases List.mem_cons.mp h with h | h
    · exact k1 (by simp [h])
    · exact k2 h

/-! ## `sanitizeFileName`: the result -/

/-- The result of `sanitizeFileName` is a part of the name after the replacement
loop. -/
theorem sanitizeFileName_sublist (name : GoString) :
    (sanitizeFileName name).Sublist (forbidden.foldl replaceByte name) := by
  simp only [sanitizeFileName]
  split_ifs
  · exact (TrimSpace_sublist _).trans (List.take_sublist _ _)
  · exact TrimSpace_sublist _

/-- C4: for every input, the result of `sanitizeFileName` holds none of the bytes of
`/ \ : * ? (apostrophe) < > | " .`, is at most 50 bytes and at most 50 characters
(`utf8.RuneCountInString`) long, and neither its first rune
(`utf8.DecodeRuneInString`) nor its last rune (`utf8.DecodeLastRuneInString`) is
white space (`unicode.IsSpace`). -/
theorem sanitizeFileName_clean (name : GoString) :
    (∀ b ∈ forbidden, b ∉ sanitizeFileName name)
    ∧ (sanitizeFileName name).length ≤ 50
    ∧ RuneCountInString (sanitizeFileName name) ≤ 50
    ∧ IsSpace (DecodeRuneInString (sanitizeFileName name)).1 = false
    ∧ IsSpace (DecodeLastRuneInString (sanitizeFileName name)).1 = false := by
  have hlen : (sanitizeFileName name).length ≤ 50 := by
    simp only [sanitizeFileName]
    split_ifs with h
    · refine le_trans (TrimSpace_sublist _).length_le ?_
      simp
    · refine le_trans (TrimSpace_sublist _).length_le ?_
      omega
  refine ⟨?_, hlen, le_trans (RuneCountInString_le _) hlen, ?_, ?_⟩
  · intro b hb hmem
    have h1 := (sanitizeFileName_sublist name).subset hmem
    have h2 := foldl_replaceByte_clean forbidden (by decide) name [] (by simp) (by simp) b h1
    exact h2.2 hb
  · exact TrimSpace_first _
  · exact TrimSpace_last _

/-! ## Cache hits and the duration limit in `downloadAndCacheAudio` -/

/-- C2: when `fileCache` holds the media identifier, `downloadAndCacheAudio` returns
exactly the cached reference, makes no external call at all (empty trace: no probe,
no fetch, no upload) and leaves the whole state, hence `fileCache`, `durationCache`
and `titleCache`, as it was. -/
theorem downloadAndCacheAudio_cache_hit (env : Env) (videoID title ytDlpPath : GoString)
    (cacheChannelID : Int) (s : State) (fileID : GoString)
    (hit : s.fileCache.lookup videoID = some fileID) :
    downloadAndCacheAudio env videoID title ytDlpPath cacheChannelID s = (fileID, s, []) := by
  simp [downloadAndCacheAudio, hit]

/-- The cache hit of C2 on a state that holds `abc`. -/
theorem downloadAndCacheAudio_cache_hit_witness :
    cachedState.fileCache.lookup (lit "abc") = some (lit "FILE")
    ∧ downloadAndCacheAudio Env.allSucceed (lit "abc") (lit "Song") (lit "yt-dlp") (-100)
        cachedState = (lit "FILE", cachedState, []) :=
  ⟨by decide, downloadAndCacheAudio_cache_hit Env.allSucceed (lit "abc") (lit "Song")
    (lit "yt-dlp") (-100) cachedState (lit "FILE") (by decide)⟩

/-- C3: for an identifier that is not in `fileCache`, when the probe command succeeds
and its trimmed output parses to a duration above 600 seconds,
`downloadAndCacheAudio` returns the empty string, the only external call is the
probe (no fetch, no stat, no upload), and `fileCache` is unchanged and still has no
entry for the identifier. -/
theorem downloadAndCacheAudio_too_long (env : Env) (videoID title ytDlpPath : GoString)
    (cacheChannelID : Int) (s : State) (out : GoString) (duration : Int)
    (miss : s.fileCache.lookup videoID = none)
    (probeOk : env.output (infoArgs ytDlpPath videoID) = some out)
    (parseOk : Atoi (TrimSpace out) = some duration)
    (long : duration > 600) :
    (downloadAndCacheAudio env videoID title ytDlpPath cacheChannelID s).1 = []
    ∧ (downloadAndCacheAudio env videoID title ytDlpPath cacheChannelID s).2.2
        = [Effect.exec (infoArgs ytDlpPath videoID)]
    ∧ (downloadAndCacheAudio env videoID title ytDlpPath cacheChannelID s).2.1.fileCache
        = s.fileCache
    ∧ (downloadAndCacheAudio env videoID title ytDlpPath cacheChannelID s).2.1.fileCache.lookup
        videoID = none := by
  have hp : probeDuration env ytDlpPath videoID = some duration := by
    simp [probeDuration, probeOk, parseOk]
  have hl : duration > MaxDurationMinutes * 60 := by
    simpa [MaxDurationMinutes] using long
  simp [downloadAndCacheAudio, miss, hp, hl]

/-- The duration limit of C3 on a probe that prints 700. -/
theorem downloadAndCacheAudio_too_long_witness :
    (downloadAndCacheAudio Env.longTrack (lit "abc") (lit "Song") (lit "yt-dlp") (-100)
        (State.init 1)).1 = []
    ∧ (downloadAndCacheAudio Env.longTrack (lit "abc") (lit "Song") (lit "yt-dlp") (-100)
        (State.init 1)).2.2 = [Effect.exec (infoArgs (lit "yt-dlp") (lit "abc"))]
    ∧ (downloadAndCacheAudio Env.longTrack (lit "abc") (lit "Song") (lit "yt-dlp") (-100)
        (State.init 1)).2.1.fileCache = (State.init 1).fileCache
    ∧ (downloadAndCacheAudio Env.longTrack (lit "abc") (lit "Song") (lit "yt-dlp") (-100)
        (State.init 1)).2.1.fileCache.lookup (lit "abc") = none :=
  downloadAndCacheAudio_too_long Env.longTrack (lit "abc") (lit "Song") (lit "yt-dlp") (-100)
    (State.init 1) (lit "700\n") 700 (by decide) rfl (by decide) (by decide)

/-! ## Foreground download of a cached track -/

/-- C10 fails as stated: `fileCache` holds `abc`, yet `durationCache` still records
700 seconds for it, and `handleDownload` answers with the too-long text and sends no
audio message. -/
theorem handleDownload_cached_but_refused :
    staleDurationState.fileCache.lookup (lit "abc") = some (lit "FILE")
    ∧ staleDurationState.durationCache.lookup (lit "abc") = some 700
    ∧ handleDownload Env.allSucceed 5 (lit "abc") (lit "Song") (lit "yt-dlp") (-100)
        staleDurationState
      = (staleDurationState, [Effect.send 5 (tooLongText [] 700)]) := by
  decide

/-- C10, amended: when `fileCache` holds the media identifier and `durationCache`
does not record a duration above 600 seconds for it, `handleDownload` sends to the
chat one audio message that carries exactly the cached reference, makes no other
call (no probe, no fetch) and leaves the state unchanged. -/
theorem handleDownload_cache_hit (env : Env) (chatID : Int)
    (videoID title ytDlpPath : GoString) (cacheChannelID : Int) (s : State)
    (fileID : GoString)
    (hit : s.fileCache.lookup videoID = some fileID)
    (notLong : durationTooLong s videoID = false) :
    handleDownload env chatID videoID title ytDlpPath cacheChannelID s
      = (s, [Effect.sendAudio chatID (AudioFile.fileID fileID) (caption title) title]) := by
  simp [handleDownload, hit, notLong]

/-- The amended C10 on a state that holds `abc` and no duration for it. -/
theorem handleDownload_cache_hit_witness :
    handleDownload Env.allSucceed 5 (lit "abc") (lit "Song") (lit "yt-dlp") (-100) cachedState
      = (cachedState,
          [Effect.sendAudio 5 (AudioFile.fileID (lit "FILE")) (caption (lit "Song"))
            (lit "Song")]) :=
  handleDownload_cache_hit Env.allSucceed 5 (lit "abc") (lit "Song") (lit "yt-dlp") (-100)
    cachedState (lit "FILE") (by decide) (by decide)

/-! ## The awaiting flags of the admin chat -/

/-- C5 fails as stated: after the admin has pressed `admin_broadcast` and then
`admin_ban`, one text message is consumed as the broadcast and `awaitingBan` is
still set for the admin chat afterwards. -/
theorem handleMessage_leaves_second_flag :
    twoFlagsState.adminID = 1
    ∧ twoFlagsState.awaitingBroadcast.getD 1 false = true
    ∧ twoFlagsState.awaitingBan.getD 1 false = true
    ∧ (handleMessage { chatID := 1, text := lit "hello", entities := [] }
        twoFlagsState).1.awaitingBan.getD 1 false = true := by
  decide

/-- C5, amended: when exactly one of `awaitingBroadcast`, `awaitingBan`,
`awaitingUnban` is set for the admin chat, then after `handleMessage` has processed
one message from that chat, whatever its text, all three flags are false for that
chat. -/
theorem handleMessage_resets_single_flag (m : Message) (s : State)
    (admin : m.chatID = s.adminID)
    (one : (s.awaitingBroadcast.getD m.chatID false = true
          ∧ s.awaitingBan.getD m.chatID false = false
          ∧ s.awaitingUnban.getD m.chatID false = false)
        ∨ (s.awaitingBroadcast.getD m.chatID false = false
          ∧ s.awaitingBan.getD m.chatID false = true
          ∧ s.awaitingUnban.getD m.chatID false = false)
        ∨ (s.awaitingBroadcast.getD m.chatID false = false
          ∧ s.awaitingBan.getD m.chatID false = false
          ∧ s.awaitingUnban.getD m.chatID false = true)) :
    (handleMessage m s).1.awaitingBroadcast.getD m.chatID false = false
    ∧ (handleMessage m s).1.awaitingBan.getD m.chatID false = false
    ∧ (handleMessage m s).1.awaitingUnban.getD m.chatID false = false := by
  rw [admin] at one
  rcases one with ⟨hb, hn, hu⟩ | ⟨hb, hn, hu⟩ | ⟨hb, hn, hu⟩
  · simp [handleMessage, adminInput, admin, hb, hn, hu, GoMap.getD_set_self]
  · cases hp : ParseInt m.text <;>
      simp [handleMessage, adminInput, admin, hb, hn, hu, hp, GoMap.getD_set_self]
  · cases hp : ParseInt m.text <;>
      simp [handleMessage, adminInput, admin, hb, hn, hu, hp, GoMap.getD_set_self]

/-- The amended C5 after the single callback `admin_unban`, on a text that is no
number. -/
theorem handleMessage_resets_single_flag_witness :
    (handleMessage { chatID := 1, text := lit "not a number", entities := [] }
        unbanFlagState).1.awaitingBroadcast.getD 1 false = false
    ∧ (handleMessage { chatID := 1, text := lit "not a number", entities := [] }
        unbanFlagState).1.awaitingBan.getD 1 false = false
    ∧ (handleMessage { chatID := 1, text := lit "not a number", entities := [] }
        unbanFlagState).1.awaitingUnban.getD 1 false = false :=
  handleMessage_resets_single_flag { chatID := 1, text := lit "not a number", entities := [] }
    unbanFlagState (by decide) (Or.inr (Or.inr (by decide)))

theorem handleCommand_state (m : Message) (s : State) : (handleCommand m s).1 = s := by
  simp only [handleCommand]
  split_ifs <;> rfl

/-- One message from the admin chat clears the first awaiting flag that is set, in
the order broadcast, ban, unban, and leaves the other two as they were. -/
theorem handleMessage_flags (m : Message) (s : State) (admin : m.chatID = s.adminID) :
    (handleMessage m s).1.awaitingBroadcast.getD m.chatID false = false
    ∧ (handleMessage m s).1.awaitingBan.getD m.chatID false
        = (s.awaitingBroadcast.getD m.chatID false && s.awaitingBan.getD m.chatID false)
    ∧ (handleMessage m s).1.awaitingUnban.getD m.chatID false
        = ((s.awaitingBroadcast.getD m.chatID false || s.awaitingBan.getD m.chatID false)
            && s.awaitingUnban.getD m.chatID false) := by
  rw [admin]
  cases hb : s.awaitingBroadcast.getD s.adminID false
  · cases hn : s.awaitingBan.getD s.adminID false
    · cases hu : s.awaitingUnban.getD s.adminID false
      · simp only [handleMessage, adminInput, admin, hb, hn, hu]
        simp only [ne_eq, not_true_eq_false, decide_False, Bool.and_false, Bool.false_eq_true,
          if_false, if_true, Bool.or_false, Bool.and_self]
        split_ifs <;> simp [handleCommand_state, hb, hn, hu]
      · cases hp : ParseInt m.text <;>
          simp [handleMessage, adminInput, admin, hb, hn, hu, hp, GoMap.getD_set_self]
    · cases hp : ParseInt m.text <;>
        simp [handleMessage, adminInput, admin, hb, hn, hp, GoMap.getD_set_self]
  · simp [handleMessage, adminInput, admin, hb, GoMap.getD_set_self]

/-! ## Input of the identifier to ban -/

/-- C8 fails as stated: with `awaitingBan` set for the admin chat but
`awaitingBroadcast` set as well, the text `abc` is broadcast, no invalid-format
message is sent and `awaitingBan` stays set; and the text `42` is broadcast too, so
`bannedUsers` does not hold 42 afterwards. -/
theorem handleMessage_ban_input_shadowed :
    twoFlagsState.awaitingBan.getD 1 false = true
    ∧ ParseInt (lit "abc") = none
    ∧ (handleMessage { chatID := 1, text := lit "abc", entities := [] } twoFlagsState).2
        = [Effect.send 1 broadcastOkText]
    ∧ (handleMessage { chatID := 1, text := lit "abc", entities := [] }
        twoFlagsState).1.awaitingBan.getD 1 false = true
    ∧ ParseInt (lit "42") = some 42
    ∧ (handleMessage { chatID := 1, text := lit "42", entities := [] }
        twoFlagsState).1.bannedUsers.getD 42 false = false := by
  decide

/-- C8, amended: when `awaitingBan` is set for the admin chat and
`awaitingBroadcast` is not, a message whose text `strconv.ParseInt` rejects makes
`handleMessage` send the invalid-format message to the admin and nothing else,
reset `awaitingBan` for that chat and leave `bannedUsers` unchanged; a message whose
text parses to `n` leaves `bannedUsers` with `n` banned. -/
theorem handleMessage_ban_input (m : Message) (s : State)
    (admin : m.chatID = s.adminID)
    (ban : s.awaitingBan.getD m.chatID false = true)
    (noBroadcast : s.awaitingBroadcast.getD m.chatID false = false) :
    match ParseInt m.text with
    | none =>
      (handleMessage m s).2 = [Effect.send m.chatID invalidIDText]
      ∧ (handleMessage m s).1.awaitingBan.getD m.chatID false = false
      ∧ (handleMessage m s).1.bannedUsers = s.bannedUsers
    | some n => (handleMessage m s).1.bannedUsers.getD n false = true := by
  rw [admin] at ban noBroadcast
  cases hp : ParseInt m.text <;>
    simp [handleMessage, adminInput, admin, ban, noBroadcast, hp, GoMap.getD_set_self]

/-- The amended C8 after the single callback `admin_ban`, on the texts `abc` and
`42`. -/
theorem handleMessage_ban_input_witness :
    ((handleMessage { chatID := 1, text := lit "abc", entities := [] } banFlagState).2
        = [Effect.send 1 invalidIDText]
      ∧ (handleMessage { chatID := 1, text := lit "abc", entities := [] }
          banFlagState).1.awaitingBan.getD 1 false = false
      ∧ (handleMessage { chatID := 1, text := lit "abc", entities := [] }
          banFlagState).1.bannedUsers = banFlagState.bannedUsers)
    ∧ (handleMessage { chatID := 1, text := lit "42", entities := [] }
        banFlagState).1.bannedUsers.getD 42 false = true :=
  ⟨handleMessage_ban_input { chatID := 1, text := lit "abc", entities := [] } banFlagState
      (by decide) (by decide) (by decide),
   handleMessage_ban_input { chatID := 1, text := lit "42", entities := [] } banFlagState
      (by decide) (by decide) (by decide)⟩

/-! ## Banned chats -/

/-- A message from a banned chat that is not the admin chat gets the refusal and
nothing else, and only `allUsers` changes. -/
theorem handleMessage_banned (m : Message) (s : State)
    (banned : s.bannedUsers.getD m.chatID false = true) (notAdmin : m.chatID ≠ s.adminID) :
    handleMessage m s
      = ({ s with allUsers := s.allUsers.set m.chatID true },
          [Effect.send m.chatID bannedText]) := by
  simp [handleMessage, banned, notAdmin]

/-- C6 fails on the code: `handleCallbackQuery` never reads `bannedUsers`.  For the
banned chat 7 the callback `dl_abc` starts a download goroutine and the callback
`lang_en` writes `userLang`; neither sends the refusal. -/
theorem handleCallbackQuery_ignores_ban :
    bannedState.bannedUsers.getD 7 false = true
    ∧ (7 : Int) ≠ bannedState.adminID
    ∧ handleCallbackQuery { id := lit "q1", chatID := 7, data := lit "dl_abc" } bannedState
      = (bannedState,
          [Effect.answerCallback (lit "q1"), Effect.go (Task.download 7 (lit "abc") [])])
    ∧ (handleCallbackQuery { id := lit "q2", chatID := 7, data := lit "lang_en" }
        bannedState).1.userLang = [(7, lit "en")]
    ∧ Effect.send 7 bannedText ∉
        (handleCallbackQuery { id := lit "q2", chatID := 7, data := lit "lang_en" }
          bannedState).2 := by
  decide

/-! ## Admin callbacks from other chats -/

/-- C9: a callback whose chat is not the admin chat and whose payload is one of
`admin_broadcast`, `admin_stats`, `admin_ban`, `admin_unban`, `admin_clearcache`
leaves the whole state unchanged (so `awaitingBroadcast`, `awaitingBan`,
`awaitingUnban`, `bannedUsers`, `fileCache` and `userLang` are unchanged) and emits
the callback acknowledgement and nothing else. -/
theorem handleCallbackQuery_admin_payload_ignored (q : CallbackQuery) (s : State)
    (notAdmin : q.chatID ≠ s.adminID)
    (payload : q.data ∈ [lit "admin_broadcast", lit "admin_stats", lit "admin_ban",
      lit "admin_unban", lit "admin_clearcache"]) :
    handleCallbackQuery q s = (s, [Effect.answerCallback q.id]) := by
  have hdl : HasPrefix q.data (lit "dl_") = false := by
    simp only [List.mem_cons, List.mem_singleton, List.not_mem_nil, or_false] at payload
    rcases payload with h | h | h | h | h <;> rw [h] <;> decide
  have hlang : languageCallback q.chatID q.data s = (s, []) := by
    simp only [List.mem_cons, List.mem_singleton, List.not_mem_nil, or_false] at payload
    have h1 : q.data ≠ lit "lang_hy" := by
      rcases payload with h | h | h | h | h <;> rw [h] <;> decide
    have h2 : q.data ≠ lit "lang_ru" := by
      rcases payload with h | h | h | h | h <;> rw [h] <;> decide
    have h3 : q.data ≠ lit "lang_en" := by
      rcases payload with h | h | h | h | h <;> rw [h] <;> decide
    simp [languageCallback, h1, h2, h3]
  simp [handleCallbackQuery, hdl, notAdmin, hlang]

/-- The frame property of C9 for chat 7 and the payload `admin_clearcache`. -/
theorem handleCallbackQuery_admin_payload_ignored_witness :
    handleCallbackQuery { id := lit "q1", chatID := 7, data := lit "admin_clearcache" }
      cachedState = (cachedState, [Effect.answerCallback (lit "q1")]) :=
  handleCallbackQuery_admin_payload_ignored
    { id := lit "q1", chatID := 7, data := lit "admin_clearcache" } cachedState
    (by decide) (by decide)

/-! ## The inline result list -/

/-- The loop of `handleInlineQuery` appends at most one entry per search result. -/
theorem inlineLoop_length_le (env : Env) (results : List SearchResult) :
    ∀ (i : Nat) (s : State) (articles : List InlineResult),
      (inlineLoop env i results s articles).2.length ≤ articles.length + results.length := by
  induction results with
  | nil => intro i s articles; simp [inlineLoop]
  | cons r rest ih =>
    intro i s articles
    simp only [inlineLoop]
    split
    · have := ih (i + 1) s articles
      simp only [List.length_cons]
      omega
    · split
      · simp
      · refine le_trans (ih _ _ _) ?_
        simp
        omega

/-- When the media source returns at most five results, the inline answer has at
most five entries. -/
theorem inlineArticles_length_le_five (env : Env) (results : List SearchResult) (s : State)
    (few : results.length ≤ 5) : (inlineArticles env results s).length ≤ 5 := by
  have := inlineLoop_length_le env results 0 s []
  simp only [List.length_nil, Nat.zero_add] at this
  exact le_trans this few

/-- C7 fails on the code: the `continue` for a track that is too long skips the test
`i == 4`, so when the fifth result is filtered out the loop never breaks.  For seven
search results of which only the fifth is too long, `handleInlineQuery` answers with
six entries. -/
theorem handleInlineQuery_six_entries :
    (handleInlineQuery Env.sevenFound { id := lit "q1", query := lit "song" } (lit "yt-dlp")
        (State.init 1)).2
      = [Effect.answerInline (lit "q1")
          (inlineArticles Env.sevenFound sevenResults (State.init 1))]
    ∧ (inlineArticles Env.sevenFound sevenResults (State.init 1)).length = 6
    ∧ (inlineArticles Env.sevenFound sevenResults (State.init 1)).map InlineResult.id
      = [lit "a", lit "b", lit "c", lit "d", lit "f", lit "g"] := by
  decide

/-! ## The duration filter of the inline result list -/

theorem inlineResultFor_id (env : Env) (s : State) (r : SearchResult) :
    (inlineResultFor env s r).id = r.ID := by
  simp only [inlineResultFor]
  split <;> rfl

theorem inlineLoop_filtered (env : Env) (results : List SearchResult) :
    ∀ (i : Nat) (s : State) (articles : List InlineResult),
      ∀ a ∈ (inlineLoop env i results s articles).2,
        a ∈ articles ∨ ∃ r ∈ results, r.Duration ≤ 600 ∧ a.id = r.ID := by
  induction results with
  | nil => intro i s articles a ha; left; simpa [inlineLoop] using ha
  | cons r rest ih =>
    intro i s articles a ha
    simp only [inlineLoop] at ha
    split_ifs at ha with h1 h2
    · rcases ih _ _ _ a ha with h | ⟨r', hr', hd⟩
      · left; exact h
      · right; exact ⟨r', List.mem_cons_of_mem _ hr', hd⟩
    · simp only [List.mem_append, List.mem_singleton] at ha
      rcases ha with h | h
      · left; exact h
      · right
        refine ⟨r, List.mem_cons_self _ _, ?_, ?_⟩
        · simp only [MaxDurationMinutes] at h1; omega
        · rw [h, inlineResultFor_id]
    · rcases ih _ _ _ a ha with h | ⟨r', hr', hd⟩
      · simp only [List.mem_append, List.mem_singleton] at h
        rcases h with h | h
        · left; exact h
        · right
          refine ⟨r, List.mem_cons_self _ _, ?_, ?_⟩
          · simp only [MaxDurationMinutes] at h1; omega
          · rw [h, inlineResultFor_id]
      · right; exact ⟨r', List.mem_cons_of_mem _ hr', hd⟩

/-- Every entry of the inline answer stems from a search result of at most 600
seconds. -/
theorem inlineArticles_filtered (env : Env) (results : List SearchResult) (s : State) :
    ∀ a ∈ inlineArticles env results s, ∃ r ∈ results, r.Duration ≤ 600 ∧ a.id = r.ID := by
  intro a ha
  rcases inlineLoop_filtered env results 0 s [] a ha with h | h
  · simp at h
  · exact h

/-! ## Concurrent download requests -/

/-- A `handleDownload` goroutine that no other goroutine interleaves with does in
six steps what the function `handleDownload` does. -/
theorem hdRun_eq_handleDownload (env : Env) (chatID : Int)
    (videoID title ytDlpPath : GoString) (cacheChannelID : Int) (s : State) :
    hdRun env chatID videoID title ytDlpPath cacheChannelID 6 HdPc.start s
      = (HdPc.finished, handleDownload env chatID videoID title ytDlpPath cacheChannelID s) := by
  simp only [hdRun, handleDownload, downloadAndCacheAudio]
  by_cases h1 : durationTooLong s videoID = true
  · simp [hdStep, h1]
  · cases h2 : s.fileCache.lookup videoID with
    | some fileID => simp [hdStep, h1, h2]
    | none =>
      cases h3 : probeDuration env ytDlpPath videoID with
      | none =>
        by_cases h4 : env.run (fetchArgs ytDlpPath (outputTemplate (sanitizeFileName title))
            videoID) = false
        · simp [hdStep, dlStep, h1, h2, h3, h4]
        · by_cases h5 : env.statOk (mp3Path (sanitizeFileName title)) = true
          · cases h6 : env.upload cacheChannelID (mp3Path (sanitizeFileName title)) title <;>
              simp [hdStep, dlStep, h1, h2, h3, h4, h5, h6]
          · simp [hdStep, dlStep, h1, h2, h3, h4, h5]
      | some d =>
        by_cases h7 : d > MaxDurationMinutes * 60
        · simp [hdStep, dlStep, h1, h2, h3, h7]
        · by_cases h4 : env.run (fetchArgs ytDlpPath (outputTemplate (sanitizeFileName title))
              videoID) = false
          · simp [hdStep, dlStep, h1, h2, h3, h4, h7]
          · by_cases h5 : env.statOk (mp3Path (sanitizeFileName title)) = true
            · cases h6 : env.upload cacheChannelID (mp3Path (sanitizeFileName title)) title <;>
                simp [hdStep, dlStep, h1, h2, h3, h4, h5, h6, h7, GoMap.lookup_set_self]
            · simp [hdStep, dlStep, h1, h2, h3, h4, h5, h7]

/-- The goroutine of `handleChosenInlineResult` does nothing for an identifier that
is marked in `inlineProcessing`: this path has the in-flight check. -/
theorem precache_in_flight (env : Env) (videoID ytDlpPath : GoString) (cacheChannelID : Int)
    (s : State) (busy : s.inlineProcessing.getD videoID false = true) :
    precache env videoID ytDlpPath cacheChannelID s = (s, []) := by
  simp [precache, busy]

/-- C1 fails on the code: `handleDownload` does not consult `inlineProcessing`.  Two
callbacks `dl_abc` from the chats 10 and 11 start two `handleDownload` goroutines for
the uncached track `abc`.  When the second goroutine looks into `fileCache` before
the first has stored its result, both run the fetch command: the trace holds it
twice.  Run one after the other, the same two goroutines fetch once. -/
theorem concurrent_downloads_fetch_twice :
    searchedState.fileCache.lookup (lit "abc") = none
    ∧ handleCallbackQuery { id := lit "c1", chatID := 10, data := lit "dl_abc" } searchedState
      = (searchedState, [Effect.answerCallback (lit "c1"),
          Effect.go (Task.download 10 (lit "abc") (lit "Song"))])
    ∧ handleCallbackQuery { id := lit "c2", chatID := 11, data := lit "dl_abc" } searchedState
      = (searchedState, [Effect.answerCallback (lit "c2"),
          Effect.go (Task.download 11 (lit "abc") (lit "Song"))])
    ∧ fetchCount (lit "yt-dlp") (lit "abc")
        (Config.run Env.allSucceed (lit "yt-dlp") (-100) twoRequests
          [0, 0, 1, 1, 0, 0, 0, 0, 1, 1, 1, 1]).trace = 2
    ∧ (Config.run Env.allSucceed (lit "yt-dlp") (-100) twoRequests
          [0, 0, 1, 1, 0, 0, 0, 0, 1, 1, 1, 1]).threads.map Download.pc
        = [HdPc.finished, HdPc.finished]
    ∧ fetchCount (lit "yt-dlp") (lit "abc")
        (Config.run Env.allSucceed (lit "yt-dlp") (-100) twoRequests
          [0, 0, 0, 0, 0, 0, 1, 1, 1, 1, 1, 1]).trace = 1 := by
  decide

end GoBotTG
